import Mathlib

/-!
Verification development for the glaredb repository excerpt.

Shallow embedding of:
* the `rayexec_bullet` array data model and the `concat` compute kernel
  (`src/crates/rayexec_bullet/src/compute/concat.rs`),
* the broadcast channel
  (`src/crates/rayexec_execution/src/execution/operators/util/broadcast.rs`),
* the expression planner
  (`src/crates/rayexec_execution/src/planner/expr.rs`),
* the parquet row-group partitioned scan
  (`src/crates/rayexec_parquet/src/functions/datatable.rs`).

The array/batch data-structure definitions themselves (the `Array` enum,
`ListArray`, `Batch`, validity bitmaps, the `collect_arrays_of_type!`
macro) are not part of the excerpt; those are modelled from the spec
(section 3 and 4.1/4.2) and are marked `Modelled from the spec:` below.
Functions taken from the excerpt keep the source's snake_case names.
-/

namespace Bullet

/-- Modelled from the spec: a validity mask is a logical sequence of
booleans of the same length as its array; a missing mask means "all
valid". We model the packed bitmap as a plain list of booleans. -/
abbrev Validity := List Bool

/-- Modelled from the spec: contiguous buffer of values of type `α`
plus an optional validity mask. -/
structure PrimitiveArray (α : Type) where
  values : List α
  validity : Option Validity

/-- Modelled from the spec: boolean values plus optional validity. -/
structure BooleanArray where
  values : List Bool
  validity : Option Validity

/-- Modelled from the spec: variable-length array. The source stores
`offsets[N+1]` plus a byte buffer; its `values_iter` yields the logical
items, which is what we store (offsets are implicit in item lengths). -/
structure VarlenArray (α : Type) where
  values : List α
  validity : Option Validity

/-- Modelled from the spec: decimal array carrying precision/scale
metadata over an integer primitive array. -/
structure DecimalArray where
  precision : Nat
  scale : Nat
  primitive : PrimitiveArray Int

/-- Timestamp unit, one of s/ms/us/ns per the spec. -/
inductive TimeUnit where
  | second
  | millisecond
  | microsecond
  | nanosecond
deriving DecidableEq, Repr

/-- Modelled from the spec: timestamp array carrying the unit over an
integer primitive array. -/
structure TimestampArray where
  unit : TimeUnit
  primitive : PrimitiveArray Int

/-- Interval value (months/days/nanos). -/
structure Interval where
  months : Int
  days : Int
  nanos : Int
deriving DecidableEq, Repr

/-- Modelled from the spec: the datatype descriptor mirroring the
`DataType` enum matched in `concat`. The struct metadata is elided
because `concat` matches `DataType::Struct(_)` without reading it. -/
inductive DataType where
  | null
  | boolean
  | float32
  | float64
  | int8
  | int16
  | int32
  | int64
  | int128
  | uint8
  | uint16
  | uint32
  | uint64
  | uint128
  | decimal64 (precision : Nat) (scale : Nat)
  | decimal128 (precision : Nat) (scale : Nat)
  | date32
  | date64
  | timestamp (unit : TimeUnit)
  | interval
  | utf8
  | largeUtf8
  | binary
  | largeBinary
  | struct
  | list (meta : DataType)
deriving DecidableEq, Repr

/-- Modelled from the spec: the tagged `Array` variant family. `List`
holds its child array, `N+1` offsets and validity inline (the source's
`ListArray` struct); `Struct` holds its row count and children. -/
inductive Array where
  | null (len : Nat)
  | boolean (arr : BooleanArray)
  | float32 (arr : PrimitiveArray Float)
  | float64 (arr : PrimitiveArray Float)
  | int8 (arr : PrimitiveArray Int)
  | int16 (arr : PrimitiveArray Int)
  | int32 (arr : PrimitiveArray Int)
  | int64 (arr : PrimitiveArray Int)
  | int128 (arr : PrimitiveArray Int)
  | uint8 (arr : PrimitiveArray Nat)
  | uint16 (arr : PrimitiveArray Nat)
  | uint32 (arr : PrimitiveArray Nat)
  | uint64 (arr : PrimitiveArray Nat)
  | uint128 (arr : PrimitiveArray Nat)
  | decimal64 (arr : DecimalArray)
  | decimal128 (arr : DecimalArray)
  | date32 (arr : PrimitiveArray Int)
  | date64 (arr : PrimitiveArray Int)
  | timestamp (arr : TimestampArray)
  | interval (arr : PrimitiveArray Interval)
  | utf8 (arr : VarlenArray String)
  | largeUtf8 (arr : VarlenArray String)
  | binary (arr : VarlenArray (List Nat))
  | largeBinary (arr : VarlenArray (List Nat))
  | struct (len : Nat) (children : List Array)
  | list (child : Array) (offsets : List Int) (validity : Option Validity)

/-- Modelled from the spec: the datatype of an array, derived from its
variant tag and metadata. -/
def Array.datatype : Array → DataType
  | .null _ => .null
  | .boolean _ => .boolean
  | .float32 _ => .float32
  | .float64 _ => .float64
  | .int8 _ => .int8
  | .int16 _ => .int16
  | .int32 _ => .int32
  | .int64 _ => .int64
  | .int128 _ => .int128
  | .uint8 _ => .uint8
  | .uint16 _ => .uint16
  | .uint32 _ => .uint32
  | .uint64 _ => .uint64
  | .uint128 _ => .uint128
  | .decimal64 a => .decimal64 a.precision a.scale
  | .decimal128 a => .decimal128 a.precision a.scale
  | .date32 _ => .date32
  | .date64 _ => .date64
  | .timestamp a => .timestamp a.unit
  | .interval _ => .interval
  | .utf8 _ => .utf8
  | .largeUtf8 _ => .largeUtf8
  | .binary _ => .binary
  | .largeBinary _ => .largeBinary
  | .struct _ _ => .struct
  | .list child _ _ => .list child.datatype

/-- Modelled from the spec: logical length of an array. A list array of
`N` rows carries `N+1` offsets. -/
def Array.len : Array → Nat
  | .null n => n
  | .boolean a => a.values.length
  | .float32 a => a.values.length
  | .float64 a => a.values.length
  | .int8 a => a.values.length
  | .int16 a => a.values.length
  | .int32 a => a.values.length
  | .int64 a => a.values.length
  | .int128 a => a.values.length
  | .uint8 a => a.values.length
  | .uint16 a => a.values.length
  | .uint32 a => a.values.length
  | .uint64 a => a.values.length
  | .uint128 a => a.values.length
  | .decimal64 a => a.primitive.values.length
  | .decimal128 a => a.primitive.values.length
  | .date32 a => a.values.length
  | .date64 a => a.values.length
  | .timestamp a => a.primitive.values.length
  | .interval a => a.values.length
  | .utf8 a => a.values.length
  | .largeUtf8 a => a.values.length
  | .binary a => a.values.length
  | .largeBinary a => a.values.length
  | .struct n _ => n
  | .list _ offsets _ => offsets.length - 1

/-- Error carrier mirroring `RayexecError`. The source carries formatted
message strings; we keep the type-mismatch and not-implemented payloads
structured (the spec: "TypeMismatch naming the expected and offending
variants"). -/
inductive RayexecError where
  | message (msg : String)
  | typeMismatch (expected : DataType) (got : DataType)
  | notImplemented (msg : String)
deriving DecidableEq, Repr

abbrev RResult (α : Type) := Except RayexecError α

/-!
Per-variant downcasts: the source's `collect_arrays_of_type!(arrays, V,
datatype)` macro. Modelled from the spec: "Datatype mismatch across
inputs → fails with `TypeMismatch` naming the expected and offending
variants." Each downcast rejects an array whose datatype differs from
the expected datatype (the first input's). For metadata-free variants
this is exactly a variant-tag check; for metadata-carrying variants the
metadata is compared too.
-/

def as_null (expected : DataType) : Array → RResult Nat
  | .null n => if DataType.null = expected then .ok n else .error (.typeMismatch expected .null)
  | other => .error (.typeMismatch expected other.datatype)

def as_boolean (expected : DataType) : Array → RResult BooleanArray
  | .boolean a => if DataType.boolean = expected then .ok a else .error (.typeMismatch expected .boolean)
  | other => .error (.typeMismatch expected other.datatype)

def as_float32 (expected : DataType) : Array → RResult (PrimitiveArray Float)
  | .float32 a => if DataType.float32 = expected then .ok a else .error (.typeMismatch expected .float32)
  | other => .error (.typeMismatch expected other.datatype)

def as_float64 (expected : DataType) : Array → RResult (PrimitiveArray Float)
  | .float64 a => if DataType.float64 = expected then .ok a else .error (.typeMismatch expected .float64)
  | other => .error (.typeMismatch expected other.datatype)

def as_int8 (expected : DataType) : Array → RResult (PrimitiveArray Int)
  | .int8 a => if DataType.int8 = expected then .ok a else .error (.typeMismatch expected .int8)
  | other => .error (.typeMismatch expected other.datatype)

def as_int16 (expected : DataType) : Array → RResult (PrimitiveArray Int)
  | .int16 a => if DataType.int16 = expected then .ok a else .error (.typeMismatch expected .int16)
  | other => .error (.typeMismatch expected other.datatype)

def as_int32 (expected : DataType) : Array → RResult (PrimitiveArray Int)
  | .int32 a => if DataType.int32 = expected then .ok a else .error (.typeMismatch expected .int32)
  | other => .error (.typeMismatch expected other.datatype)

def as_int64 (expected : DataType) : Array → RResult (PrimitiveArray Int)
  | .int64 a => if DataType.int64 = expected then .ok a else .error (.typeMismatch expected .int64)
  | other => .error (.typeMismatch expected other.datatype)

def as_int128 (expected : DataType) : Array → RResult (PrimitiveArray Int)
  | .int128 a => if DataType.int128 = expected then .ok a else .error (.typeMismatch expected .int128)
  | other => .error (.typeMismatch expected other.datatype)

def as_uint8 (expected : DataType) : Array → RResult (PrimitiveArray Nat)
  | .uint8 a => if DataType.uint8 = expected then .ok a else .error (.typeMismatch expected .uint8)
  | other => .error (.typeMismatch expected other.datatype)

def as_uint16 (expected : DataType) : Array → RResult (PrimitiveArray Nat)
  | .uint16 a => if DataType.uint16 = expected then .ok a else .error (.typeMismatch expected .uint16)
  | other => .error (.typeMismatch expected other.datatype)

def as_uint32 (expected : DataType) : Array → RResult (PrimitiveArray Nat)
  | .uint32 a => if DataType.uint32 = expected then .ok a else .error (.typeMismatch expected .uint32)
  | other => .error (.typeMismatch expected other.datatype)

def as_uint64 (expected : DataType) : Array → RResult (PrimitiveArray Nat)
  | .uint64 a => if DataType.uint64 = expected then .ok a else .error (.typeMismatch expected .uint64)
  | other => .error (.typeMismatch expected other.datatype)

def as_uint128 (expected : DataType) : Array → RResult (PrimitiveArray Nat)
  | .uint128 a => if DataType.uint128 = expected then .ok a else .error (.typeMismatch expected .uint128)
  | other => .error (.typeMismatch expected other.datatype)

def as_decimal64 (expected : DataType) : Array → RResult DecimalArray
  | .decimal64 a =>
    if DataType.decimal64 a.precision a.scale = expected then .ok a
    else .error (.typeMismatch expected (.decimal64 a.precision a.scale))
  | other => .error (.typeMismatch expected other.datatype)

def as_decimal128 (expected : DataType) : Array → RResult DecimalArray
  | .decimal128 a =>
    if DataType.decimal128 a.precision a.scale = expected then .ok a
    else .error (.typeMismatch expected (.decimal128 a.precision a.scale))
  | other => .error (.typeMismatch expected other.datatype)

def as_date32 (expected : DataType) : Array → RResult (PrimitiveArray Int)
  | .date32 a => if DataType.date32 = expected then .ok a else .error (.typeMismatch expected .date32)
  | other => .error (.typeMismatch expected other.datatype)

def as_date64 (expected : DataType) : Array → RResult (PrimitiveArray Int)
  | .date64 a => if DataType.date64 = expected then .ok a else .error (.typeMismatch expected .date64)
  | other => .error (.typeMismatch expected other.datatype)

def as_timestamp (expected : DataType) : Array → RResult TimestampArray
  | .timestamp a =>
    if DataType.timestamp a.unit = expected then .ok a
    else .error (.typeMismatch expected (.timestamp a.unit))
  | other => .error (.typeMismatch expected other.datatype)

def as_interval (expected : DataType) : Array → RResult (PrimitiveArray Interval)
  | .interval a => if DataType.interval = expected then .ok a else .error (.typeMismatch expected .interval)
  | other => .error (.typeMismatch expected other.datatype)

def as_utf8 (expected : DataType) : Array → RResult (VarlenArray String)
  | .utf8 a => if DataType.utf8 = expected then .ok a else .error (.typeMismatch expected .utf8)
  | other => .error (.typeMismatch expected other.datatype)

def as_large_utf8 (expected : DataType) : Array → RResult (VarlenArray String)
  | .largeUtf8 a => if DataType.largeUtf8 = expected then .ok a else .error (.typeMismatch expected .largeUtf8)
  | other => .error (.typeMismatch expected other.datatype)

def as_binary (expected : DataType) : Array → RResult (VarlenArray (List Nat))
  | .binary a => if DataType.binary = expected then .ok a else .error (.typeMismatch expected .binary)
  | other => .error (.typeMismatch expected other.datatype)

def as_large_binary (expected : DataType) : Array → RResult (VarlenArray (List Nat))
  | .largeBinary a => if DataType.largeBinary = expected then .ok a else .error (.typeMismatch expected .largeBinary)
  | other => .error (.typeMismatch expected other.datatype)

/-- Payload of a list array: child, offsets, validity. -/
structure ListPayload where
  child : Array
  offsets : List Int
  validity : Option Validity

def as_list (expected : DataType) : Array → RResult ListPayload
  | .list child offsets validity =>
    if DataType.list child.datatype = expected then .ok ⟨child, offsets, validity⟩
    else .error (.typeMismatch expected (.list child.datatype))
  | other => .error (.typeMismatch expected other.datatype)

/-- Modelled from the spec: `concat_validities` over `(length, validity)`
pairs. If every validity is absent the result is absent; otherwise each
absent input contributes all-valid of its length. -/
def concat_validities (items : List (Nat × Option Validity)) : Option Validity :=
  if items.all fun p => p.2.isNone then none
  else some (items.map (fun p => p.2.getD (List.replicate p.1 true))).flatten

/-- `concat_boolean` from the source: in-order value concatenation plus
`concat_validities` over `(len, validity)` pairs. -/
def concat_boolean (arrays : List BooleanArray) : BooleanArray :=
  { values := (arrays.map (fun a => a.values)).flatten
    validity := concat_validities (arrays.map fun a => (a.values.length, a.validity)) }

/-- `concat_primitive` from the source. -/
def concat_primitive {α : Type} (arrays : List (PrimitiveArray α)) : PrimitiveArray α :=
  { values := (arrays.map (fun a => a.values)).flatten
    validity := concat_validities (arrays.map fun a => (a.values.length, a.validity)) }

/-- `concat_varlen` from the source: the logical items are concatenated
in order (offsets are implicit in our varlen model). -/
def concat_varlen {α : Type} (arrays : List (VarlenArray α)) : VarlenArray α :=
  { values := (arrays.map (fun a => a.values)).flatten
    validity := concat_validities (arrays.map fun a => (a.values.length, a.validity)) }

/-- The offset-building loop of `concat_list`: start from `[0]` and a
running base `start = 0`; for each input append its offsets minus the
leading zero, shifted by `start`; then set `start` to the last offset so
far. -/
def concat_list_offsets_step (acc : List Int × Int) (offsets : List Int) :
    List Int × Int :=
  let extended := acc.1 ++ (offsets.drop 1).map (fun o => o + acc.2)
  (extended, (extended.getLast?).getD 0)

def concat_list_offsets (offsetLists : List (List Int)) : List Int :=
  (offsetLists.foldl concat_list_offsets_step ([0], 0)).1

/-- The body of `concat` after the source reads
`datatype = arrays[0].datatype()` and matches on it. The `List` branch
inlines the source's `concat_list` (validity from `(len, validity)`
pairs, recursive concat of the child arrays, offsets via
`concat_list_offsets`); the recursive call `concat(&inners)` becomes
`concat_go meta inners` — the downcast just checked that every input
has datatype `.list meta`, so every child has datatype `meta`, which is
exactly what the re-entered `concat` would read off `inners[0]`. -/
def concat_go : DataType → List Array → RResult Array
  | .null, arrays => do
    let lens ← arrays.mapM (as_null .null)
    .ok (.null lens.sum)
  | .boolean, arrays => do
    let arrs ← arrays.mapM (as_boolean .boolean)
    .ok (.boolean (concat_boolean arrs))
  | .float32, arrays => do
    let arrs ← arrays.mapM (as_float32 .float32)
    .ok (.float32 (concat_primitive arrs))
  | .float64, arrays => do
    let arrs ← arrays.mapM (as_float64 .float64)
    .ok (.float64 (concat_primitive arrs))
  | .int8, arrays => do
    let arrs ← arrays.mapM (as_int8 .int8)
    .ok (.int8 (concat_primitive arrs))
  | .int16, arrays => do
    let arrs ← arrays.mapM (as_int16 .int16)
    .ok (.int16 (concat_primitive arrs))
  | .int32, arrays => do
    let arrs ← arrays.mapM (as_int32 .int32)
    .ok (.int32 (concat_primitive arrs))
  | .int64, arrays => do
    let arrs ← arrays.mapM (as_int64 .int64)
    .ok (.int64 (concat_primitive arrs))
  | .int128, arrays => do
    let arrs ← arrays.mapM (as_int128 .int128)
    .ok (.int128 (concat_primitive arrs))
  | .uint8, arrays => do
    let arrs ← arrays.mapM (as_uint8 .uint8)
    .ok (.uint8 (concat_primitive arrs))
  | .uint16, arrays => do
    let arrs ← arrays.mapM (as_uint16 .uint16)
    .ok (.uint16 (concat_primitive arrs))
  | .uint32, arrays => do
    let arrs ← arrays.mapM (as_uint32 .uint32)
    .ok (.uint32 (concat_primitive arrs))
  | .uint64, arrays => do
    let arrs ← arrays.mapM (as_uint64 .uint64)
    .ok (.uint64 (concat_primitive arrs))
  | .uint128, arrays => do
    let arrs ← arrays.mapM (as_uint128 .uint128)
    .ok (.uint128 (concat_primitive arrs))
  | .decimal64 p s, arrays => do
    let arrs ← arrays.mapM (as_decimal64 (.decimal64 p s))
    .ok (.decimal64 ⟨p, s, concat_primitive (arrs.map fun a => a.primitive)⟩)
  | .decimal128 p s, arrays => do
    let arrs ← arrays.mapM (as_decimal128 (.decimal128 p s))
    .ok (.decimal128 ⟨p, s, concat_primitive (arrs.map fun a => a.primitive)⟩)
  | .date32, arrays => do
    let arrs ← arrays.mapM (as_date32 .date32)
    .ok (.date32 (concat_primitive arrs))
  | .date64, arrays => do
    let arrs ← arrays.mapM (as_date64 .date64)
    .ok (.date64 (concat_primitive arrs))
  | .timestamp u, arrays => do
    let arrs ← arrays.mapM (as_timestamp (.timestamp u))
    .ok (.timestamp ⟨u, concat_primitive (arrs.map fun a => a.primitive)⟩)
  | .interval, arrays => do
    let arrs ← arrays.mapM (as_interval .interval)
    .ok (.interval (concat_primitive arrs))
  | .utf8, arrays => do
    let arrs ← arrays.mapM (as_utf8 .utf8)
    .ok (.utf8 (concat_varlen arrs))
  | .largeUtf8, arrays => do
    let arrs ← arrays.mapM (as_large_utf8 .largeUtf8)
    .ok (.largeUtf8 (concat_varlen arrs))
  | .binary, arrays => do
    let arrs ← arrays.mapM (as_binary .binary)
    .ok (.binary (concat_varlen arrs))
  | .largeBinary, arrays => do
    let arrs ← arrays.mapM (as_large_binary .largeBinary)
    .ok (.largeBinary (concat_varlen arrs))
  | .struct, _ => .error (.notImplemented "struct concat")
  | .list meta, arrays => do
    let arrs ← arrays.mapM (as_list (.list meta))
    let inner ← concat_go meta (arrs.map fun a => a.child)
    .ok (.list inner (concat_list_offsets (arrs.map fun a => a.offsets))
      (concat_validities (arrs.map fun a => (a.offsets.length - 1, a.validity))))

/-- `concat` from the source: error on an empty input list, otherwise
branch on the first input's datatype. -/
def concat (arrays : List Array) : RResult Array :=
  match arrays with
  | [] => .error (.message "Cannot concat zero arrays")
  | a :: _ => concat_go a.datatype arrays

/-- Modelled from the spec: a `Batch` is an ordered sequence of columns
sharing one row count; `try_new` validates the shared length. -/
structure Batch where
  columns : List Array

/-- Modelled from the spec: the empty batch (zero rows, zero columns). -/
def Batch.empty : Batch := ⟨[]⟩

def Batch.num_columns (b : Batch) : Nat := b.columns.length

/-- `column(i)` returns the i-th column when it exists. -/
def Batch.column (b : Batch) (idx : Nat) : Option Array := b.columns.get? idx

/-- Modelled from the spec: `try_new(columns)` validates equal length
and returns a Batch, or fails on a length disagreement. -/
def Batch.try_new (columns : List Array) : RResult Batch :=
  match columns with
  | [] => .ok ⟨[]⟩
  | c :: rest =>
    if rest.all fun c2 => c2.len = c.len then .ok ⟨c :: rest⟩
    else .error (.message "Batch columns have differing lengths")

/-- `concat_batches` from the source: empty input gives an empty batch;
otherwise, for each column index of the FIRST batch, gather that column
from every batch (failing with "Missing column" when some batch lacks
it) and concat them; finally rebuild via `Batch::try_new`. -/
def concat_batches (batches : List Batch) : RResult Batch :=
  match batches with
  | [] => .ok Batch.empty
  | b0 :: _ => do
    let num_cols := b0.num_columns
    let concatted ← (List.range num_cols).mapM fun col_idx => do
      match batches.mapM (fun b => b.column col_idx) with
      | none => Except.error (.message "Missing column")
      | some cols => concat cols
    Batch.try_new concatted

/-- A datatype is struct-free when no `struct` appears at any nesting
level (the only nesting is through `list`). -/
def struct_free : DataType → Bool
  | .struct => false
  | .list meta => struct_free meta
  | _ => true

theorem except_bind_ok {ε α β : Type} {x : Except ε α} {f : α → Except ε β} {b : β} :
    (x >>= f) = .ok b ↔ ∃ a, x = .ok a ∧ f a = .ok b := by
  cases x <;> simp [Bind.bind, Except.bind]

theorem except_bind_error {ε α β : Type} {x : Except ε α} {f : α → Except ε β} {e : ε} :
    (x >>= f) = .error e ↔ x = .error e ∨ ∃ a, x = .ok a ∧ f a = .error e := by
  cases x <;> simp [Bind.bind, Except.bind]

theorem mapM_ok_forall₂ {ε α β : Type} (f : α → Except ε β) :
    ∀ {l : List α} {bs : List β}, l.mapM f = .ok bs →
      List.Forall₂ (fun a b => f a = .ok b) l bs := by
  intro l
  induction l with
  | nil =>
    intro bs h
    simp [List.mapM, List.mapM.loop, pure, Except.pure] at h
    simp [← h]
  | cons a rest ih =>
    intro bs h
    rw [List.mapM_cons] at h
    rcases except_bind_ok.mp h with ⟨b, hb, h2⟩
    rcases except_bind_ok.mp h2 with ⟨tl, htl, h3⟩
    simp [pure, Except.pure] at h3
    subst h3
    exact List.Forall₂.cons hb (ih htl)

theorem mapM_ok_of_forall {ε α β : Type} (f : α → Except ε β) :
    ∀ {l : List α}, (∀ a ∈ l, ∃ b, f a = .ok b) →
      ∃ bs, l.mapM f = .ok bs := by
  intro l
  induction l with
  | nil =>
    intro _
    exact ⟨[], by simp [List.mapM, List.mapM.loop, pure, Except.pure]⟩
  | cons a rest ih =>
    intro h
    obtain ⟨b, hb⟩ := h a (by simp)
    obtain ⟨bs, hbs⟩ := ih fun x hx => h x (by simp [hx])
    refine ⟨b :: bs, ?_⟩
    rw [List.mapM_cons, hb, hbs]
    simp [pure, Except.pure, Bind.bind, Except.bind]

theorem mapM_error_mem {ε α β : Type} (f : α → Except ε β) :
    ∀ {l : List α} {e : ε}, l.mapM f = .error e → ∃ a ∈ l, f a = .error e := by
  intro l
  induction l with
  | nil =>
    intro e h
    simp [List.mapM, List.mapM.loop, pure, Except.pure] at h
  | cons a rest ih =>
    intro e h
    rw [List.mapM_cons] at h
    rcases except_bind_error.mp h with he | ⟨b, hb, h2⟩
    · exact ⟨a, by simp, he⟩
    · rcases except_bind_error.mp h2 with he | ⟨tl, htl, h3⟩
      · obtain ⟨x, hx, hfx⟩ := ih he
        exact ⟨x, by simp [hx], hfx⟩
      · simp [pure, Except.pure] at h3

theorem forall₂_map_eq {α β γ : Type} {g : β → γ} {h : α → γ} :
    ∀ {l : List α} {bs : List β},
      List.Forall₂ (fun a b => g b = h a) l bs → bs.map g = l.map h := by
  intro l bs hf
  induction hf with
  | nil => rfl
  | cons hab _ ih => simp [ih, hab]

theorem concat_primitive_len {α : Type} (arrs : List (PrimitiveArray α)) :
    (concat_primitive arrs).values.length = (arrs.map fun a => a.values.length).sum := by
  simp only [concat_primitive, List.length_flatten, List.map_map]
  rfl

theorem concat_boolean_len (arrs : List BooleanArray) :
    (concat_boolean arrs).values.length = (arrs.map fun a => a.values.length).sum := by
  simp only [concat_boolean, List.length_flatten, List.map_map]
  rfl

theorem concat_varlen_len {α : Type} (arrs : List (VarlenArray α)) :
    (concat_varlen arrs).values.length = (arrs.map fun a => a.values.length).sum := by
  simp only [concat_varlen, List.length_flatten, List.map_map]
  rfl

theorem concat_list_offsets_fold_length :
    ∀ (ols : List (List Int)) (acc : List Int × Int),
      ((ols.foldl concat_list_offsets_step acc).1).length
        = acc.1.length + (ols.map fun o => o.length - 1).sum := by
  intro ols
  induction ols with
  | nil => intro acc; simp
  | cons o rest ih =>
    intro acc
    rw [List.foldl_cons, ih]
    simp [concat_list_offsets_step]
    omega

theorem concat_list_offsets_length (ols : List (List Int)) :
    (concat_list_offsets ols).length = 1 + (ols.map fun o => o.length - 1).sum := by
  simpa using concat_list_offsets_fold_length ols ([0], 0)

/-- All non-list branches of `concat_go` share the shape
`mapM downcast >>= (fun payloads => ok (rebuild payloads))`; this lemma
turns per-payload length preservation into the summed length of the
rebuilt array. -/
theorem concat_branch_len {β : Type} {arrays : List Array} {out : Array}
    (f : Array → RResult β) (mk : List β → Array) (plen : β → Nat)
    (h : (arrays.mapM f >>= fun bs => Except.ok (mk bs)) = Except.ok out)
    (hf : ∀ a b, f a = .ok b → plen b = a.len)
    (hmk : ∀ bs, (mk bs).len = (bs.map plen).sum) :
    out.len = (arrays.map Array.len).sum := by
  rcases except_bind_ok.mp h with ⟨bs, hbs, hout⟩
  have hout2 : mk bs = out := by simpa using hout
  have hfa := mapM_ok_forall₂ f hbs
  have hfa2 : List.Forall₂ (fun a b => plen b = a.len) arrays bs :=
    hfa.imp fun {a b} hab => hf a b hab
  have hmap : bs.map plen = arrays.map Array.len := forall₂_map_eq hfa2
  rw [← hout2, hmk, hmap]

theorem as_null_ok {expected : DataType} {a : Array} {b : Nat}
    (h : as_null expected a = .ok b) : a = Array.null b ∧ DataType.null = expected := by
  cases a <;> simp only [as_null] at h <;> try exact Except.noConfusion h
  split at h
  · rename_i hc
    injection h with h2
    subst h2
    exact ⟨rfl, hc⟩
  · exact Except.noConfusion h

theorem as_null_error {expected : DataType} {a : Array} {e : RayexecError}
    (h : as_null expected a = .error e) : ∃ p q, e = RayexecError.typeMismatch p q := by
  cases a <;> simp only [as_null] at h
  all_goals try (injection h with h2; exact ⟨_, _, h2.symm⟩)
  split at h
  · exact Except.noConfusion h
  · injection h with h2
    exact ⟨_, _, h2.symm⟩

theorem as_null_ok_mk {expected : DataType} {b : Nat} (h : DataType.null = expected) :
    as_null expected (Array.null b) = .ok b := by
  simp [as_null, h]

theorem as_null_total {a : Array} (h : a.datatype = DataType.null) :
    ∃ b, as_null DataType.null a = .ok b := by
  cases a <;> first
    | exact ⟨_, as_null_ok_mk h⟩
    | simp [Array.datatype] at h

theorem as_boolean_ok {expected : DataType} {a : Array} {b : BooleanArray}
    (h : as_boolean expected a = .ok b) : a = Array.boolean b ∧ DataType.boolean = expected := by
  cases a <;> simp only [as_boolean] at h <;> try exact Except.noConfusion h
  split at h
  · rename_i hc
    injection h with h2
    subst h2
    exact ⟨rfl, hc⟩
  · exact Except.noConfusion h

theorem as_boolean_error {expected : DataType} {a : Array} {e : RayexecError}
    (h : as_boolean expected a = .error e) : ∃ p q, e = RayexecError.typeMismatch p q := by
  cases a <;> simp only [as_boolean] at h
  all_goals try (injection h with h2; exact ⟨_, _, h2.symm⟩)
  split at h
  · exact Except.noConfusion h
  · injection h with h2
    exact ⟨_, _, h2.symm⟩

theorem as_boolean_ok_mk {expected : DataType} {b : BooleanArray} (h : DataType.boolean = expected) :
    as_boolean expected (Array.boolean b) = .ok b := by
  simp [as_boolean, h]

theorem as_boolean_total {a : Array} (h : a.datatype = DataType.boolean) :
    ∃ b, as_boolean DataType.boolean a = .ok b := by
  cases a <;> first
    | exact ⟨_, as_boolean_ok_mk h⟩
    | simp [Array.datatype] at h

theorem as_float32_ok {expected : DataType} {a : Array} {b : PrimitiveArray Float}
    (h : as_float32 expected a = .ok b) : a = Array.float32 b ∧ DataType.float32 = expected := by
  cases a <;> simp only [as_float32] at h <;> try exact Except.noConfusion h
  split at h
  · rename_i hc
    injection h with h2
    subst h2
    exact ⟨rfl, hc⟩
  · exact Except.noConfusion h

theorem as_float32_error {expected : DataType} {a : Array} {e : RayexecError}
    (h : as_float32 expected a = .error e) : ∃ p q, e = RayexecError.typeMismatch p q := by
  cases a <;> simp only [as_float32] at h
  all_goals try (injection h with h2; exact ⟨_, _, h2.symm⟩)
  split at h
  · exact Except.noConfusion h
  · injection h with h2
    exact ⟨_, _, h2.symm⟩

theorem as_float32_ok_mk {expected : DataType} {b : PrimitiveArray Float} (h : DataType.float32 = expected) :
    as_float32 expected (Array.float32 b) = .ok b := by
  simp [as_float32, h]

theorem as_float32_total {a : Array} (h : a.datatype = DataType.float32) :
    ∃ b, as_float32 DataType.float32 a = .ok b := by
  cases a <;> first
    | exact ⟨_, as_float32_ok_mk h⟩
    | simp [Array.datatype] at h

theorem as_float64_ok {expected : DataType} {a : Array} {b : PrimitiveArray Float}
    (h : as_float64 expected a = .ok b) : a = Array.float64 b ∧ DataType.float64 = expected := by
  cases a <;> simp only [as_float64] at h <;> try exact Except.noConfusion h
  split at h
  · rename_i hc
    injection h with h2
    subst h2
    exact ⟨rfl, hc⟩
  · exact Except.noConfusion h

theorem as_float64_error {expected : DataType} {a : Array} {e : RayexecError}
    (h : as_float64 expected a = .error e) : ∃ p q, e = RayexecError.typeMismatch p q := by
  cases a <;> simp only [as_float64] at h
  all_goals try (injection h with h2; exact ⟨_, _, h2.symm⟩)
  split at h
  · exact Except.noConfusion h
  · injection h with h2
    exact ⟨_, _, h2.symm⟩

theorem as_float64_ok_mk {expected : DataType} {b : PrimitiveArray Float} (h : DataType.float64 = expected) :
    as_float64 expected (Array.float64 b) = .ok b := by
  simp [as_float64, h]

theorem as_float64_total {a : Array} (h : a.datatype = DataType.float64) :
    ∃ b, as_float64 DataType.float64 a = .ok b := by
  cases a <;> first
    | exact ⟨_, as_float64_ok_mk h⟩
    | simp [Array.datatype] at h

theorem as_int8_ok {expected : DataType} {a : Array} {b : PrimitiveArray Int}
    (h : as_int8 expected a = .ok b) : a = Array.int8 b ∧ DataType.int8 = expected := by
  cases a <;> simp only [as_int8] at h <;> try exact Except.noConfusion h
  split at h
  · rename_i hc
    injection h with h2
    subst h2
    exact ⟨rfl, hc⟩
  · exact Except.noConfusion h

theorem as_int8_error {expected : DataType} {a : Array} {e : RayexecError}
    (h : as_int8 expected a = .error e) : ∃ p q, e = RayexecError.typeMismatch p q := by
  cases a <;> simp only [as_int8] at h
  all_goals try (injection h with h2; exact ⟨_, _, h2.symm⟩)
  split at h
  · exact Except.noConfusion h
  · injection h with h2
    exact ⟨_, _, h2.symm⟩

theorem as_int8_ok_mk {expected : DataType} {b : PrimitiveArray Int} (h : DataType.int8 = expected) :
    as_int8 expected (Array.int8 b) = .ok b := by
  simp [as_int8, h]

theorem as_int8_total {a : Array} (h : a.datatype = DataType.int8) :
    ∃ b, as_int8 DataType.int8 a = .ok b := by
  cases a <;> first
    | exact ⟨_, as_int8_ok_mk h⟩
    | simp [Array.datatype] at h

theorem as_int16_ok {expected : DataType} {a : Array} {b : PrimitiveArray Int}
    (h : as_int16 expected a = .ok b) : a = Array.int16 b ∧ DataType.int16 = expected := by
  cases a <;> simp only [as_int16] at h <;> try exact Except.noConfusion h
  split at h
  · rename_i hc
    injection h with h2
    subst h2
    exact ⟨rfl, hc⟩
  · exact Except.noConfusion h

theorem as_int16_error {expected : DataType} {a : Array} {e : RayexecError}
    (h : as_int16 expected a = .error e) : ∃ p q, e = RayexecError.typeMismatch p q := by
  cases a <;> simp only [as_int16] at h
  all_goals try (injection h with h2; exact ⟨_, _, h2.symm⟩)
  split at h
  · exact Except.noConfusion h
  · injection h with h2
    exact ⟨_, _, h2.symm⟩

theorem as_int16_ok_mk {expected : DataType} {b : PrimitiveArray Int} (h : DataType.int16 = expected) :
    as_int16 expected (Array.int16 b) = .ok b := by
  simp [as_int16, h]

theorem as_int16_total {a : Array} (h : a.datatype = DataType.int16) :
    ∃ b, as_int16 DataType.int16 a = .ok b := by
  cases a <;> first
    | exact ⟨_, as_int16_ok_mk h⟩
    | simp [Array.datatype] at h

theorem as_int32_ok {expected : DataType} {a : Array} {b : PrimitiveArray Int}
    (h : as_int32 expected a = .ok b) : a = Array.int32 b ∧ DataType.int32 = expected := by
  cases a <;> simp only [as_int32] at h <;> try exact Except.noConfusion h
  split at h
  · rename_i hc
    injection h with h2
    subst h2
    exact ⟨rfl, hc⟩
  · exact Except.noConfusion h

theorem as_int32_error {expected : DataType} {a : Array} {e : RayexecError}
    (h : as_int32 expected a = .error e) : ∃ p q, e = RayexecError.typeMismatch p q := by
  cases a <;> simp only [as_int32] at h
  all_goals try (injection h with h2; exact ⟨_, _, h2.symm⟩)
  split at h
  · exact Except.noConfusion h
  · injection h with h2
    exact ⟨_, _, h2.symm⟩

theorem as_int32_ok_mk {expected : DataType} {b : PrimitiveArray Int} (h : DataType.int32 = expected) :
    as_int32 expected (Array.int32 b) = .ok b := by
  simp [as_int32, h]

theorem as_int32_total {a : Array} (h : a.datatype = DataType.int32) :
    ∃ b, as_int32 DataType.int32 a = .ok b := by
  cases a <;> first
    | exact ⟨_, as_int32_ok_mk h⟩
    | simp [Array.datatype] at h

theorem as_int64_ok {expected : DataType} {a : Array} {b : PrimitiveArray Int}
    (h : as_int64 expected a = .ok b) : a = Array.int64 b ∧ DataType.int64 = expected := by
  cases a <;> simp only [as_int64] at h <;> try exact Except.noConfusion h
  split at h
  · rename_i hc
    injection h with h2
    subst h2
    exact ⟨rfl, hc⟩
  · exact Except.noConfusion h

theorem as_int64_error {expected : DataType} {a : Array} {e : RayexecError}
    (h : as_int64 expected a = .error e) : ∃ p q, e = RayexecError.typeMismatch p q := by
  cases a <;> simp only [as_int64] at h
  all_goals try (injection h with h2; exact ⟨_, _, h2.symm⟩)
  split at h
  · exact Except.noConfusion h
  · injection h with h2
    exact ⟨_, _, h2.symm⟩

theorem as_int64_ok_mk {expected : DataType} {b : PrimitiveArray Int} (h : DataType.int64 = expected) :
    as_int64 expected (Array.int64 b) = .ok b := by
  simp [as_int64, h]

theorem as_int64_total {a : Array} (h : a.datatype = DataType.int64) :
    ∃ b, as_int64 DataType.int64 a = .ok b := by
  cases a <;> first
    | exact ⟨_, as_int64_ok_mk h⟩
    | simp [Array.datatype] at h

theorem as_int128_ok {expected : DataType} {a : Array} {b : PrimitiveArray Int}
    (h : as_int128 expected a = .ok b) : a = Array.int128 b ∧ DataType.int128 = expected := by
  cases a <;> simp only [as_int128] at h <;> try exact Except.noConfusion h
  split at h
  · rename_i hc
    injection h with h2
    subst h2
    exact ⟨rfl, hc⟩
  · exact Except.noConfusion h

theorem as_int128_error {expected : DataType} {a : Array} {e : RayexecError}
    (h : as_int128 expected a = .error e) : ∃ p q, e = RayexecError.typeMismatch p q := by
  cases a <;> simp only [as_int128] at h
  all_goals try (injection h with h2; exact ⟨_, _, h2.symm⟩)
  split at h
  · exact Except.noConfusion h
  · injection h with h2
    exact ⟨_, _, h2.symm⟩

theorem as_int128_ok_mk {expected : DataType} {b : PrimitiveArray Int} (h : DataType.int128 = expected) :
    as_int128 expected (Array.int128 b) = .ok b := by
  simp [as_int128, h]

theorem as_int128_total {a : Array} (h : a.datatype = DataType.int128) :
    ∃ b, as_int128 DataType.int128 a = .ok b := by
  cases a <;> first
    | exact ⟨_, as_int128_ok_mk h⟩
    | simp [Array.datatype] at h

theorem as_uint8_ok {expected : DataType} {a : Array} {b : PrimitiveArray Nat}
    (h : as_uint8 expected a = .ok b) : a = Array.uint8 b ∧ DataType.uint8 = expected := by
  cases a <;> simp only [as_uint8] at h <;> try exact Except.noConfusion h
  split at h
  · rename_i hc
    injection h with h2
    subst h2
    exact ⟨rfl, hc⟩
  · exact Except.noConfusion h

theorem as_uint8_error {expected : DataType} {a : Array} {e : RayexecError}
    (h : as_uint8 expected a = .error e) : ∃ p q, e = RayexecError.typeMismatch p q := by
  cases a <;> simp only [as_uint8] at h
  all_goals try (injection h with h2; exact ⟨_, _, h2.symm⟩)
  split at h
  · exact Except.noConfusion h
  · injection h with h2
    exact ⟨_, _, h2.symm⟩

theorem as_uint8_ok_mk {expected : DataType} {b : PrimitiveArray Nat} (h : DataType.uint8 = expected) :
    as_uint8 expected (Array.uint8 b) = .ok b := by
  simp [as_uint8, h]

theorem as_uint8_total {a : Array} (h : a.datatype = DataType.uint8) :
    ∃ b, as_uint8 DataType.uint8 a = .ok b := by
  cases a <;> first
    | exact ⟨_, as_uint8_ok_mk h⟩
    | simp [Array.datatype] at h

theorem as_uint16_ok {expected : DataType} {a : Array} {b : PrimitiveArray Nat}
    (h : as_uint16 expected a = .ok b) : a = Array.uint16 b ∧ DataType.uint16 = expected := by
  cases a <;> simp only [as_uint16] at h <;> try exact Except.noConfusion h
  split at h
  · rename_i hc
    injection h with h2
    subst h2
    exact ⟨rfl, hc⟩
  · exact Except.noConfusion h

theorem as_uint16_error {expected : DataType} {a : Array} {e : RayexecError}
    (h : as_uint16 expected a = .error e) : ∃ p q, e = RayexecError.typeMismatch p q := by
  cases a <;> simp only [as_uint16] at h
  all_goals try (injection h with h2; exact ⟨_, _, h2.symm⟩)
  split at h
  · exact Except.noConfusion h
  · injection h with h2
    exact ⟨_, _, h2.symm⟩

theorem as_uint16_ok_mk {expected : DataType} {b : PrimitiveArray Nat} (h : DataType.uint16 = expected) :
    as_uint16 expected (Array.uint16 b) = .ok b := by
  simp [as_uint16, h]

theorem as_uint16_total {a : Array} (h : a.datatype = DataType.uint16) :
    ∃ b, as_uint16 DataType.uint16 a = .ok b := by
  cases a <;> first
    | exact ⟨_, as_uint16_ok_mk h⟩
    | simp [Array.datatype] at h

theorem as_uint32_ok {expected : DataType} {a : Array} {b : PrimitiveArray Nat}
    (h : as_uint32 expected a = .ok b) : a = Array.uint32 b ∧ DataType.uint32 = expected := by
  cases a <;> simp only [as_uint32] at h <;> try exact Except.noConfusion h
  split at h
  · rename_i hc
    injection h with h2
    subst h2
    exact ⟨rfl, hc⟩
  · exact Except.noConfusion h

theorem as_uint32_error {expected : DataType} {a : Array} {e : RayexecError}
    (h : as_uint32 expected a = .error e) : ∃ p q, e = RayexecError.typeMismatch p q := by
  cases a <;> simp only [as_uint32] at h
  all_goals try (injection h with h2; exact ⟨_, _, h2.symm⟩)
  split at h
  · exact Except.noConfusion h
  · injection h with h2
    exact ⟨_, _, h2.symm⟩

theorem as_uint32_ok_mk {expected : DataType} {b : PrimitiveArray Nat} (h : DataType.uint32 = expected) :
    as_uint32 expected (Array.uint32 b) = .ok b := by
  simp [as_uint32, h]

theorem as_uint32_total {a : Array} (h : a.datatype = DataType.uint32) :
    ∃ b, as_uint32 DataType.uint32 a = .ok b := by
  cases a <;> first
    | exact ⟨_, as_uint32_ok_mk h⟩
    | simp [Array.datatype] at h

theorem as_uint64_ok {expected : DataType} {a : Array} {b : PrimitiveArray Nat}
    (h : as_uint64 expected a = .ok b) : a = Array.uint64 b ∧ DataType.uint64 = expected := by
  cases a <;> simp only [as_uint64] at h <;> try exact Except.noConfusion h
  split at h
  · rename_i hc
    injection h with h2
    subst h2
    exact ⟨rfl, hc⟩
  · exact Except.noConfusion h

theorem as_uint64_error {expected : DataType} {a : Array} {e : RayexecError}
    (h : as_uint64 expected a = .error e) : ∃ p q, e = RayexecError.typeMismatch p q := by
  cases a <;> simp only [as_uint64] at h
  all_goals try (injection h with h2; exact ⟨_, _, h2.symm⟩)
  split at h
  · exact Except.noConfusion h
  · injection h with h2
    exact ⟨_, _, h2.symm⟩

theorem as_uint64_ok_mk {expected : DataType} {b : PrimitiveArray Nat} (h : DataType.uint64 = expected) :
    as_uint64 expected (Array.uint64 b) = .ok b := by
  simp [as_uint64, h]

theorem as_uint64_total {a : Array} (h : a.datatype = DataType.uint64) :
    ∃ b, as_uint64 DataType.uint64 a = .ok b := by
  cases a <;> first
    | exact ⟨_, as_uint64_ok_mk h⟩
    | simp [Array.datatype] at h

theorem as_uint128_ok {expected : DataType} {a : Array} {b : PrimitiveArray Nat}
    (h : as_uint128 expected a = .ok b) : a = Array.uint128 b ∧ DataType.uint128 = expected := by
  cases a <;> simp only [as_uint128] at h <;> try exact Except.noConfusion h
  split at h
  · rename_i hc
    injection h with h2
    subst h2
    exact ⟨rfl, hc⟩
  · exact Except.noConfusion h

theorem as_uint128_error {expected : DataType} {a : Array} {e : RayexecError}
    (h : as_uint128 expected a = .error e) : ∃ p q, e = RayexecError.typeMismatch p q := by
  cases a <;> simp only [as_uint128] at h
  all_goals try (injection h with h2; exact ⟨_, _, h2.symm⟩)
  split at h
  · exact Except.noConfusion h
  · injection h with h2
    exact ⟨_, _, h2.symm⟩

theorem as_uint128_ok_mk {expected : DataType} {b : PrimitiveArray Nat} (h : DataType.uint128 = expected) :
    as_uint128 expected (Array.uint128 b) = .ok b := by
  simp [as_uint128, h]

theorem as_uint128_total {a : Array} (h : a.datatype = DataType.uint128) :
    ∃ b, as_uint128 DataType.uint128 a = .ok b := by
  cases a <;> first
    | exact ⟨_, as_uint128_ok_mk h⟩
    | simp [Array.datatype] at h

theorem as_date32_ok {expected : DataType} {a : Array} {b : PrimitiveArray Int}
    (h : as_date32 expected a = .ok b) : a = Array.date32 b ∧ DataType.date32 = expected := by
  cases a <;> simp only [as_date32] at h <;> try exact Except.noConfusion h
  split at h
  · rename_i hc
    injection h with h2
    subst h2
    exact ⟨rfl, hc⟩
  · exact Except.noConfusion h

theorem as_date32_error {expected : DataType} {a : Array} {e : RayexecError}
    (h : as_date32 expected a = .error e) : ∃ p q, e = RayexecError.typeMismatch p q := by
  cases a <;> simp only [as_date32] at h
  all_goals try (injection h with h2; exact ⟨_, _, h2.symm⟩)
  split at h
  · exact Except.noConfusion h
  · injection h with h2
    exact ⟨_, _, h2.symm⟩

theorem as_date32_ok_mk {expected : DataType} {b : PrimitiveArray Int} (h : DataType.date32 = expected) :
    as_date32 expected (Array.date32 b) = .ok b := by
  simp [as_date32, h]

theorem as_date32_total {a : Array} (h : a.datatype = DataType.date32) :
    ∃ b, as_date32 DataType.date32 a = .ok b := by
  cases a <;> first
    | exact ⟨_, as_date32_ok_mk h⟩
    | simp [Array.datatype] at h

theorem as_date64_ok {expected : DataType} {a : Array} {b : PrimitiveArray Int}
    (h : as_date64 expected a = .ok b) : a = Array.date64 b ∧ DataType.date64 = expected := by
  cases a <;> simp only [as_date64] at h <;> try exact Except.noConfusion h
  split at h
  · rename_i hc
    injection h with h2
    subst h2
    exact ⟨rfl, hc⟩
  · exact Except.noConfusion h

theorem as_date64_error {expected : DataType} {a : Array} {e : RayexecError}
    (h : as_date64 expected a = .error e) : ∃ p q, e = RayexecError.typeMismatch p q := by
  cases a <;> simp only [as_date64] at h
  all_goals try (injection h with h2; exact ⟨_, _, h2.symm⟩)
  split at h
  · exact Except.noConfusion h
  · injection h with h2
    exact ⟨_, _, h2.symm⟩

theorem as_date64_ok_mk {expected : DataType} {b : PrimitiveArray Int} (h : DataType.date64 = expected) :
    as_date64 expected (Array.date64 b) = .ok b := by
  simp [as_date64, h]

theorem as_date64_total {a : Array} (h : a.datatype = DataType.date64) :
    ∃ b, as_date64 DataType.date64 a = .ok b := by
  cases a <;> first
    | exact ⟨_, as_date64_ok_mk h⟩
    | simp [Array.datatype] at h

theorem as_interval_ok {expected : DataType} {a : Array} {b : PrimitiveArray Interval}
    (h : as_interval expected a = .ok b) : a = Array.interval b ∧ DataType.interval = expected := by
  cases a <;> simp only [as_interval] at h <;> try exact Except.noConfusion h
  split at h
  · rename_i hc
    injection h with h2
    subst h2
    exact ⟨rfl, hc⟩
  · exact Except.noConfusion h

theorem as_interval_error {expected : DataType} {a : Array} {e : RayexecError}
    (h : as_interval expected a = .error e) : ∃ p q, e = RayexecError.typeMismatch p q := by
  cases a <;> simp only [as_interval] at h
  all_goals try (injection h with h2; exact ⟨_, _, h2.symm⟩)
  split at h
  · exact Except.noConfusion h
  · injection h with h2
    exact ⟨_, _, h2.symm⟩

theorem as_interval_ok_mk {expected : DataType} {b : PrimitiveArray Interval} (h : DataType.interval = expected) :
    as_interval expected (Array.interval b) = .ok b := by
  simp [as_interval, h]

theorem as_interval_total {a : Array} (h : a.datatype = DataType.interval) :
    ∃ b, as_interval DataType.interval a = .ok b := by
  cases a <;> first
    | exact ⟨_, as_interval_ok_mk h⟩
    | simp [Array.datatype] at h

theorem as_utf8_ok {expected : DataType} {a : Array} {b : VarlenArray String}
    (h : as_utf8 expected a = .ok b) : a = Array.utf8 b ∧ DataType.utf8 = expected := by
  cases a <;> simp only [as_utf8] at h <;> try exact Except.noConfusion h
  split at h
  · rename_i hc
    injection h with h2
    subst h2
    exact ⟨rfl, hc⟩
  · exact Except.noConfusion h

theorem as_utf8_error {expected : DataType} {a : Array} {e : RayexecError}
    (h : as_utf8 expected a = .error e) : ∃ p q, e = RayexecError.typeMismatch p q := by
  cases a <;> simp only [as_utf8] at h
  all_goals try (injection h with h2; exact ⟨_, _, h2.symm⟩)
  split at h
  · exact Except.noConfusion h
  · injection h with h2
    exact ⟨_, _, h2.symm⟩

theorem as_utf8_ok_mk {expected : DataType} {b : VarlenArray String} (h : DataType.utf8 = expected) :
    as_utf8 expected (Array.utf8 b) = .ok b := by
  simp [as_utf8, h]

theorem as_utf8_total {a : Array} (h : a.datatype = DataType.utf8) :
    ∃ b, as_utf8 DataType.utf8 a = .ok b := by
  cases a <;> first
    | exact ⟨_, as_utf8_ok_mk h⟩
    | simp [Array.datatype] at h

theorem as_large_utf8_ok {expected : DataType} {a : Array} {b : VarlenArray String}
    (h : as_large_utf8 expected a = .ok b) : a = Array.largeUtf8 b ∧ DataType.largeUtf8 = expected := by
  cases a <;> simp only [as_large_utf8] at h <;> try exact Except.noConfusion h
  split at h
  · rename_i hc
    injection h with h2
    subst h2
    exact ⟨rfl, hc⟩
  · exact Except.noConfusion h

theorem as_large_utf8_error {expected : DataType} {a : Array} {e : RayexecError}
    (h : as_large_utf8 expected a = .error e) : ∃ p q, e = RayexecError.typeMismatch p q := by
  cases a <;> simp only [as_large_utf8] at h
  all_goals try (injection h with h2; exact ⟨_, _, h2.symm⟩)
  split at h
  · exact Except.noConfusion h
  · injection h with h2
    exact ⟨_, _, h2.symm⟩

theorem as_large_utf8_ok_mk {expected : DataType} {b : VarlenArray String} (h : DataType.largeUtf8 = expected) :
    as_large_utf8 expected (Array.largeUtf8 b) = .ok b := by
  simp [as_large_utf8, h]

theorem as_large_utf8_total {a : Array} (h : a.datatype = DataType.largeUtf8) :
    ∃ b, as_large_utf8 DataType.largeUtf8 a = .ok b := by
  cases a <;> first
    | exact ⟨_, as_large_utf8_ok_mk h⟩
    | simp [Array.datatype] at h

theorem as_binary_ok {expected : DataType} {a : Array} {b : VarlenArray (List Nat)}
    (h : as_binary expected a = .ok b) : a = Array.binary b ∧ DataType.binary = expected := by
  cases a <;> simp only [as_binary] at h <;> try exact Except.noConfusion h
  split at h
  · rename_i hc
    injection h with h2
    subst h2
    exact ⟨rfl, hc⟩
  · exact Except.noConfusion h

theorem as_binary_error {expected : DataType} {a : Array} {e : RayexecError}
    (h : as_binary expected a = .error e) : ∃ p q, e = RayexecError.typeMismatch p q := by
  cases a <;> simp only [as_binary] at h
  all_goals try (injection h with h2; exact ⟨_, _, h2.symm⟩)
  split at h
  · exact Except.noConfusion h
  · injection h with h2
    exact ⟨_, _, h2.symm⟩

theorem as_binary_ok_mk {expected : DataType} {b : VarlenArray (List Nat)} (h : DataType.binary = expected) :
    as_binary expected (Array.binary b) = .ok b := by
  simp [as_binary, h]

theorem as_binary_total {a : Array} (h : a.datatype = DataType.binary) :
    ∃ b, as_binary DataType.binary a = .ok b := by
  cases a <;> first
    | exact ⟨_, as_binary_ok_mk h⟩
    | simp [Array.datatype] at h

theorem as_large_binary_ok {expected : DataType} {a : Array} {b : VarlenArray (List Nat)}
    (h : as_large_binary expected a = .ok b) : a = Array.largeBinary b ∧ DataType.largeBinary = expected := by
  cases a <;> simp only [as_large_binary] at h <;> try exact Except.noConfusion h
  split at h
  · rename_i hc
    injection h with h2
    subst h2
    exact ⟨rfl, hc⟩
  · exact Except.noConfusion h

theorem as_large_binary_error {expected : DataType} {a : Array} {e : RayexecError}
    (h : as_large_binary expected a = .error e) : ∃ p q, e = RayexecError.typeMismatch p q := by
  cases a <;> simp only [as_large_binary] at h
  all_goals try (injection h with h2; exact ⟨_, _, h2.symm⟩)
  split at h
  · exact Except.noConfusion h
  · injection h with h2
    exact ⟨_, _, h2.symm⟩

theorem as_large_binary_ok_mk {expected : DataType} {b : VarlenArray (List Nat)} (h : DataType.largeBinary = expected) :
    as_large_binary expected (Array.largeBinary b) = .ok b := by
  simp [as_large_binary, h]

theorem as_large_binary_total {a : Array} (h : a.datatype = DataType.largeBinary) :
    ∃ b, as_large_binary DataType.largeBinary a = .ok b := by
  cases a <;> first
    | exact ⟨_, as_large_binary_ok_mk h⟩
    | simp [Array.datatype] at h

theorem as_decimal64_ok {expected : DataType} {a : Array} {b : DecimalArray}
    (h : as_decimal64 expected a = .ok b) : a = Array.decimal64 b ∧ DataType.decimal64 b.precision b.scale = expected := by
  cases a <;> simp only [as_decimal64] at h <;> try exact Except.noConfusion h
  split at h
  · rename_i hc
    injection h with h2
    subst h2
    exact ⟨rfl, hc⟩
  · exact Except.noConfusion h

theorem as_decimal64_error {expected : DataType} {a : Array} {e : RayexecError}
    (h : as_decimal64 expected a = .error e) : ∃ p q, e = RayexecError.typeMismatch p q := by
  cases a <;> simp only [as_decimal64] at h
  all_goals try (injection h with h2; exact ⟨_, _, h2.symm⟩)
  split at h
  · exact Except.noConfusion h
  · injection h with h2
    exact ⟨_, _, h2.symm⟩

theorem as_decimal64_ok_mk {expected : DataType} {b : DecimalArray} (h : DataType.decimal64 b.precision b.scale = expected) :
    as_decimal64 expected (Array.decimal64 b) = .ok b := by
  simp [as_decimal64, h]

theorem as_decimal64_total {p s : Nat} {a : Array} (h : a.datatype = (DataType.decimal64 p s)) :
    ∃ b, as_decimal64 (DataType.decimal64 p s) a = .ok b := by
  cases a <;> first
    | exact ⟨_, as_decimal64_ok_mk h⟩
    | simp [Array.datatype] at h

theorem as_decimal128_ok {expected : DataType} {a : Array} {b : DecimalArray}
    (h : as_decimal128 expected a = .ok b) : a = Array.decimal128 b ∧ DataType.decimal128 b.precision b.scale = expected := by
  cases a <;> simp only [as_decimal128] at h <;> try exact Except.noConfusion h
  split at h
  · rename_i hc
    injection h with h2
    subst h2
    exact ⟨rfl, hc⟩
  · exact Except.noConfusion h

theorem as_decimal128_error {expected : DataType} {a : Array} {e : RayexecError}
    (h : as_decimal128 expected a = .error e) : ∃ p q, e = RayexecError.typeMismatch p q := by
  cases a <;> simp only [as_decimal128] at h
  all_goals try (injection h with h2; exact ⟨_, _, h2.symm⟩)
  split at h
  · exact Except.noConfusion h
  · injection h with h2
    exact ⟨_, _, h2.symm⟩

theorem as_decimal128_ok_mk {expected : DataType} {b : DecimalArray} (h : DataType.decimal128 b.precision b.scale = expected) :
    as_decimal128 expected (Array.decimal128 b) = .ok b := by
  simp [as_decimal128, h]

theorem as_decimal128_total {p s : Nat} {a : Array} (h : a.datatype = (DataType.decimal128 p s)) :
    ∃ b, as_decimal128 (DataType.decimal128 p s) a = .ok b := by
  cases a <;> first
    | exact ⟨_, as_decimal128_ok_mk h⟩
    | simp [Array.datatype] at h

theorem as_timestamp_ok {expected : DataType} {a : Array} {b : TimestampArray}
    (h : as_timestamp expected a = .ok b) : a = Array.timestamp b ∧ DataType.timestamp b.unit = expected := by
  cases a <;> simp only [as_timestamp] at h <;> try exact Except.noConfusion h
  split at h
  · rename_i hc
    injection h with h2
    subst h2
    exact ⟨rfl, hc⟩
  · exact Except.noConfusion h

theorem as_timestamp_error {expected : DataType} {a : Array} {e : RayexecError}
    (h : as_timestamp expected a = .error e) : ∃ p q, e = RayexecError.typeMismatch p q := by
  cases a <;> simp only [as_timestamp] at h
  all_goals try (injection h with h2; exact ⟨_, _, h2.symm⟩)
  split at h
  · exact Except.noConfusion h
  · injection h with h2
    exact ⟨_, _, h2.symm⟩

theorem as_timestamp_ok_mk {expected : DataType} {b : TimestampArray} (h : DataType.timestamp b.unit = expected) :
    as_timestamp expected (Array.timestamp b) = .ok b := by
  simp [as_timestamp, h]

theorem as_timestamp_total {u : TimeUnit} {a : Array} (h : a.datatype = (DataType.timestamp u)) :
    ∃ b, as_timestamp (DataType.timestamp u) a = .ok b := by
  cases a <;> first
    | exact ⟨_, as_timestamp_ok_mk h⟩
    | simp [Array.datatype] at h

theorem as_list_ok {expected : DataType} {a : Array} {b : ListPayload}
    (h : as_list expected a = .ok b) : a = Array.list b.child b.offsets b.validity ∧ DataType.list b.child.datatype = expected := by
  cases a <;> simp only [as_list] at h <;> try exact Except.noConfusion h
  split at h
  · rename_i hc
    injection h with h2
    subst h2
    exact ⟨rfl, hc⟩
  · exact Except.noConfusion h

theorem as_list_error {expected : DataType} {a : Array} {e : RayexecError}
    (h : as_list expected a = .error e) : ∃ p q, e = RayexecError.typeMismatch p q := by
  cases a <;> simp only [as_list] at h
  all_goals try (injection h with h2; exact ⟨_, _, h2.symm⟩)
  split at h
  · exact Except.noConfusion h
  · injection h with h2
    exact ⟨_, _, h2.symm⟩

theorem as_list_ok_mk {expected : DataType} {b : ListPayload} (h : DataType.list b.child.datatype = expected) :
    as_list expected (Array.list b.child b.offsets b.validity) = .ok b := by
  simp [as_list, h]

theorem as_list_total {m : DataType} {a : Array} (h : a.datatype = (DataType.list m)) :
    ∃ b, as_list (DataType.list m) a = .ok b := by
  cases a <;> simp [Array.datatype] at h
  rename_i child offsets validity
  refine ⟨⟨child, offsets, validity⟩, @as_list_ok_mk (DataType.list m) ⟨child, offsets, validity⟩ ?_⟩
  show DataType.list child.datatype = DataType.list m
  rw [h]

/-- Whenever a `concat_go` call succeeds, the result's length is the
sum of the input lengths (no hypothesis on datatypes is needed: success
itself forces the downcasts to have succeeded). -/
theorem concat_go_ok_len {d : DataType} {arrays : List Array} {out : Array}
    (h : concat_go d arrays = .ok out) : out.len = (arrays.map Array.len).sum := by
  cases d with
  | null =>
    simp only [concat_go] at h
    exact concat_branch_len _ _ (fun b : Nat => b) h
      (fun a b hab => by rw [(as_null_ok hab).1]; rfl)
      (fun bs => by simp [Array.len, List.map_id'])
  | boolean =>
    simp only [concat_go] at h
    exact concat_branch_len _ _ (fun b : BooleanArray => b.values.length) h
      (fun a b hab => by rw [(as_boolean_ok hab).1]; rfl)
      (fun bs => by simp only [Array.len, concat_boolean_len])
  | float32 =>
    simp only [concat_go] at h
    exact concat_branch_len _ _ (fun b : PrimitiveArray Float => b.values.length) h
      (fun a b hab => by rw [(as_float32_ok hab).1]; rfl)
      (fun bs => by simp only [Array.len, concat_primitive_len])
  | float64 =>
    simp only [concat_go] at h
    exact concat_branch_len _ _ (fun b : PrimitiveArray Float => b.values.length) h
      (fun a b hab => by rw [(as_float64_ok hab).1]; rfl)
      (fun bs => by simp only [Array.len, concat_primitive_len])
  | int8 =>
    simp only [concat_go] at h
    exact concat_branch_len _ _ (fun b : PrimitiveArray Int => b.values.length) h
      (fun a b hab => by rw [(as_int8_ok hab).1]; rfl)
      (fun bs => by simp only [Array.len, concat_primitive_len])
  | int16 =>
    simp only [concat_go] at h
    exact concat_branch_len _ _ (fun b : PrimitiveArray Int => b.values.length) h
      (fun a b hab => by rw [(as_int16_ok hab).1]; rfl)
      (fun bs => by simp only [Array.len, concat_primitive_len])
  | int32 =>
    simp only [concat_go] at h
    exact concat_branch_len _ _ (fun b : PrimitiveArray Int => b.values.length) h
      (fun a b hab => by rw [(as_int32_ok hab).1]; rfl)
      (fun bs => by simp only [Array.len, concat_primitive_len])
  | int64 =>
    simp only [concat_go] at h
    exact concat_branch_len _ _ (fun b : PrimitiveArray Int => b.values.length) h
      (fun a b hab => by rw [(as_int64_ok hab).1]; rfl)
      (fun bs => by simp only [Array.len, concat_primitive_len])
  | int128 =>
    simp only [concat_go] at h
    exact concat_branch_len _ _ (fun b : PrimitiveArray Int => b.values.length) h
      (fun a b hab => by rw [(as_int128_ok hab).1]; rfl)
      (fun bs => by simp only [Array.len, concat_primitive_len])
  | uint8 =>
    simp only [concat_go] at h
    exact concat_branch_len _ _ (fun b : PrimitiveArray Nat => b.values.length) h
      (fun a b hab => by rw [(as_uint8_ok hab).1]; rfl)
      (fun bs => by simp only [Array.len, concat_primitive_len])
  | uint16 =>
    simp only [concat_go] at h
    exact concat_branch_len _ _ (fun b : PrimitiveArray Nat => b.values.length) h
      (fun a b hab => by rw [(as_uint16_ok hab).1]; rfl)
      (fun bs => by simp only [Array.len, concat_primitive_len])
  | uint32 =>
    simp only [concat_go] at h
    exact concat_branch_len _ _ (fun b : PrimitiveArray Nat => b.values.length) h
      (fun a b hab => by rw [(as_uint32_ok hab).1]; rfl)
      (fun bs => by simp only [Array.len, concat_primitive_len])
  | uint64 =>
    simp only [concat_go] at h
    exact concat_branch_len _ _ (fun b : PrimitiveArray Nat => b.values.length) h
      (fun a b hab => by rw [(as_uint64_ok hab).1]; rfl)
      (fun bs => by simp only [Array.len, concat_primitive_len])
  | uint128 =>
    simp only [concat_go] at h
    exact concat_branch_len _ _ (fun b : PrimitiveArray Nat => b.values.length) h
      (fun a b hab => by rw [(as_uint128_ok hab).1]; rfl)
      (fun bs => by simp only [Array.len, concat_primitive_len])
  | date32 =>
    simp only [concat_go] at h
    exact concat_branch_len _ _ (fun b : PrimitiveArray Int => b.values.length) h
      (fun a b hab => by rw [(as_date32_ok hab).1]; rfl)
      (fun bs => by simp only [Array.len, concat_primitive_len])
  | date64 =>
    simp only [concat_go] at h
    exact concat_branch_len _ _ (fun b : PrimitiveArray Int => b.values.length) h
      (fun a b hab => by rw [(as_date64_ok hab).1]; rfl)
      (fun bs => by simp only [Array.len, concat_primitive_len])
  | interval =>
    simp only [concat_go] at h
    exact concat_branch_len _ _ (fun b : PrimitiveArray Interval => b.values.length) h
      (fun a b hab => by rw [(as_interval_ok hab).1]; rfl)
      (fun bs => by simp only [Array.len, concat_primitive_len])
  | utf8 =>
    simp only [concat_go] at h
    exact concat_branch_len _ _ (fun b : VarlenArray String => b.values.length) h
      (fun a b hab => by rw [(as_utf8_ok hab).1]; rfl)
      (fun bs => by simp only [Array.len, concat_varlen_len])
  | largeUtf8 =>
    simp only [concat_go] at h
    exact concat_branch_len _ _ (fun b : VarlenArray String => b.values.length) h
      (fun a b hab => by rw [(as_large_utf8_ok hab).1]; rfl)
      (fun bs => by simp only [Array.len, concat_varlen_len])
  | binary =>
    simp only [concat_go] at h
    exact concat_branch_len _ _ (fun b : VarlenArray (List Nat) => b.values.length) h
      (fun a b hab => by rw [(as_binary_ok hab).1]; rfl)
      (fun bs => by simp only [Array.len, concat_varlen_len])
  | largeBinary =>
    simp only [concat_go] at h
    exact concat_branch_len _ _ (fun b : VarlenArray (List Nat) => b.values.length) h
      (fun a b hab => by rw [(as_large_binary_ok hab).1]; rfl)
      (fun bs => by simp only [Array.len, concat_varlen_len])
  | decimal64 p s =>
    simp only [concat_go] at h
    exact concat_branch_len _ _ (fun b : DecimalArray => b.primitive.values.length) h
      (fun a b hab => by rw [(as_decimal64_ok hab).1]; rfl)
      (fun bs => by simp only [Array.len, concat_primitive_len, List.map_map]; rfl)
  | decimal128 p s =>
    simp only [concat_go] at h
    exact concat_branch_len _ _ (fun b : DecimalArray => b.primitive.values.length) h
      (fun a b hab => by rw [(as_decimal128_ok hab).1]; rfl)
      (fun bs => by simp only [Array.len, concat_primitive_len, List.map_map]; rfl)
  | timestamp u =>
    simp only [concat_go] at h
    exact concat_branch_len _ _ (fun b : TimestampArray => b.primitive.values.length) h
      (fun a b hab => by rw [(as_timestamp_ok hab).1]; rfl)
      (fun bs => by simp only [Array.len, concat_primitive_len, List.map_map]; rfl)
  | struct =>
    simp only [concat_go] at h
    exact Except.noConfusion h
  | list meta =>
    simp only [concat_go] at h
    rcases except_bind_ok.mp h with ⟨arrs, harrs, h2⟩
    rcases except_bind_ok.mp h2 with ⟨inner, hinner, h3⟩
    have h4 : Array.list inner (concat_list_offsets (arrs.map fun a => a.offsets))
        (concat_validities (arrs.map fun a => (a.offsets.length - 1, a.validity))) = out := by
      injection h3
    subst h4
    have hfa := mapM_ok_forall₂ _ harrs
    have hmap : arrs.map (fun b => b.offsets.length - 1) = arrays.map Array.len :=
      forall₂_map_eq (hfa.imp fun {a b} hab => by rw [(as_list_ok hab).1]; rfl)
    show (concat_list_offsets (arrs.map fun a => a.offsets)).length - 1 = (arrays.map Array.len).sum
    rw [concat_list_offsets_length, List.map_map, ← hmap]
    have hcomp : arrs.map ((fun o : List Int => o.length - 1) ∘ (fun a : ListPayload => a.offsets))
        = arrs.map (fun b => b.offsets.length - 1) := rfl
    rw [hcomp]
    omega

theorem except_ok_bind {ε α β : Type} (a : α) (f : α → Except ε β) :
    (Except.ok a >>= f) = f a := rfl

theorem except_error_bind {ε α β : Type} (e : ε) (f : α → Except ε β) :
    ((Except.error e : Except ε α) >>= f) = .error e := rfl

theorem forall₂_mem_r {α β : Type} {P : α → β → Prop} :
    ∀ {l : List α} {bs : List β}, List.Forall₂ P l bs →
      ∀ b ∈ bs, ∃ a ∈ l, P a b := by
  intro l bs h
  induction h with
  | nil => intro b hb; simp at hb
  | cons hab _ ih =>
    intro b hb
    rcases List.mem_cons.mp hb with rfl | hb2
    · exact ⟨_, by simp, hab⟩
    · obtain ⟨a, ha, hPab⟩ := ih _ hb2
      exact ⟨a, by simp [ha], hPab⟩

theorem forall₂_mem_l {α β : Type} {P : α → β → Prop} :
    ∀ {l : List α} {bs : List β}, List.Forall₂ P l bs →
      ∀ a ∈ l, ∃ b, P a b := by
  intro l bs h
  induction h with
  | nil => intro a ha; simp at ha
  | cons hab _ ih =>
    intro a ha
    rcases List.mem_cons.mp ha with rfl | ha2
    · exact ⟨_, hab⟩
    · exact ih _ ha2

theorem as_list_children_datatype {meta : DataType} {arrays : List Array}
    {arrs : List ListPayload}
    (h : arrays.mapM (as_list (.list meta)) = .ok arrs) :
    ∀ c ∈ arrs.map (fun a => a.child), c.datatype = meta := by
  intro c hc
  rw [List.mem_map] at hc
  obtain ⟨b, hb, rfl⟩ := hc
  obtain ⟨a, _, hab⟩ := forall₂_mem_r (mapM_ok_forall₂ _ h) b hb
  exact DataType.list.inj (as_list_ok hab).2

/-- When all inputs share a struct-free datatype `d`, every branch of
`concat_go` succeeds. -/
theorem concat_go_ok_of_struct_free :
    ∀ (d : DataType), struct_free d = true →
      ∀ (arrays : List Array), (∀ a ∈ arrays, a.datatype = d) →
        ∃ out, concat_go d arrays = .ok out := by
  intro d
  induction d with
  | null =>
    intro _ arrays hall
    obtain ⟨bs, hbs⟩ := mapM_ok_of_forall _ (fun a ha => as_null_total (hall a ha))
    exact ⟨_, by simp only [concat_go]; rw [hbs, except_ok_bind]⟩
  | boolean =>
    intro _ arrays hall
    obtain ⟨bs, hbs⟩ := mapM_ok_of_forall _ (fun a ha => as_boolean_total (hall a ha))
    exact ⟨_, by simp only [concat_go]; rw [hbs, except_ok_bind]⟩
  | float32 =>
    intro _ arrays hall
    obtain ⟨bs, hbs⟩ := mapM_ok_of_forall _ (fun a ha => as_float32_total (hall a ha))
    exact ⟨_, by simp only [concat_go]; rw [hbs, except_ok_bind]⟩
  | float64 =>
    intro _ arrays hall
    obtain ⟨bs, hbs⟩ := mapM_ok_of_forall _ (fun a ha => as_float64_total (hall a ha))
    exact ⟨_, by simp only [concat_go]; rw [hbs, except_ok_bind]⟩
  | int8 =>
    intro _ arrays hall
    obtain ⟨bs, hbs⟩ := mapM_ok_of_forall _ (fun a ha => as_int8_total (hall a ha))
    exact ⟨_, by simp only [concat_go]; rw [hbs, except_ok_bind]⟩
  | int16 =>
    intro _ arrays hall
    obtain ⟨bs, hbs⟩ := mapM_ok_of_forall _ (fun a ha => as_int16_total (hall a ha))
    exact ⟨_, by simp only [concat_go]; rw [hbs, except_ok_bind]⟩
  | int32 =>
    intro _ arrays hall
    obtain ⟨bs, hbs⟩ := mapM_ok_of_forall _ (fun a ha => as_int32_total (hall a ha))
    exact ⟨_, by simp only [concat_go]; rw [hbs, except_ok_bind]⟩
  | int64 =>
    intro _ arrays hall
    obtain ⟨bs, hbs⟩ := mapM_ok_of_forall _ (fun a ha => as_int64_total (hall a ha))
    exact ⟨_, by simp only [concat_go]; rw [hbs, except_ok_bind]⟩
  | int128 =>
    intro _ arrays hall
    obtain ⟨bs, hbs⟩ := mapM_ok_of_forall _ (fun a ha => as_int128_total (hall a ha))
    exact ⟨_, by simp only [concat_go]; rw [hbs, except_ok_bind]⟩
  | uint8 =>
    intro _ arrays hall
    obtain ⟨bs, hbs⟩ := mapM_ok_of_forall _ (fun a ha => as_uint8_total (hall a ha))
    exact ⟨_, by simp only [concat_go]; rw [hbs, except_ok_bind]⟩
  | uint16 =>
    intro _ arrays hall
    obtain ⟨bs, hbs⟩ := mapM_ok_of_forall _ (fun a ha => as_uint16_total (hall a ha))
    exact ⟨_, by simp only [concat_go]; rw [hbs, except_ok_bind]⟩
  | uint32 =>
    intro _ arrays hall
    obtain ⟨bs, hbs⟩ := mapM_ok_of_forall _ (fun a ha => as_uint32_total (hall a ha))
    exact ⟨_, by simp only [concat_go]; rw [hbs, except_ok_bind]⟩
  | uint64 =>
    intro _ arrays hall
    obtain ⟨bs, hbs⟩ := mapM_ok_of_forall _ (fun a ha => as_uint64_total (hall a ha))
    exact ⟨_, by simp only [concat_go]; rw [hbs, except_ok_bind]⟩
  | uint128 =>
    intro _ arrays hall
    obtain ⟨bs, hbs⟩ := mapM_ok_of_forall _ (fun a ha => as_uint128_total (hall a ha))
    exact ⟨_, by simp only [concat_go]; rw [hbs, except_ok_bind]⟩
  | date32 =>
    intro _ arrays hall
    obtain ⟨bs, hbs⟩ := mapM_ok_of_forall _ (fun a ha => as_date32_total (hall a ha))
    exact ⟨_, by simp only [concat_go]; rw [hbs, except_ok_bind]⟩
  | date64 =>
    intro _ arrays hall
    obtain ⟨bs, hbs⟩ := mapM_ok_of_forall _ (fun a ha => as_date64_total (hall a ha))
    exact ⟨_, by simp only [concat_go]; rw [hbs, except_ok_bind]⟩
  | interval =>
    intro _ arrays hall
    obtain ⟨bs, hbs⟩ := mapM_ok_of_forall _ (fun a ha => as_interval_total (hall a ha))
    exact ⟨_, by simp only [concat_go]; rw [hbs, except_ok_bind]⟩
  | utf8 =>
    intro _ arrays hall
    obtain ⟨bs, hbs⟩ := mapM_ok_of_forall _ (fun a ha => as_utf8_total (hall a ha))
    exact ⟨_, by simp only [concat_go]; rw [hbs, except_ok_bind]⟩
  | largeUtf8 =>
    intro _ arrays hall
    obtain ⟨bs, hbs⟩ := mapM_ok_of_forall _ (fun a ha => as_large_utf8_total (hall a ha))
    exact ⟨_, by simp only [concat_go]; rw [hbs, except_ok_bind]⟩
  | binary =>
    intro _ arrays hall
    obtain ⟨bs, hbs⟩ := mapM_ok_of_forall _ (fun a ha => as_binary_total (hall a ha))
    exact ⟨_, by simp only [concat_go]; rw [hbs, except_ok_bind]⟩
  | largeBinary =>
    intro _ arrays hall
    obtain ⟨bs, hbs⟩ := mapM_ok_of_forall _ (fun a ha => as_large_binary_total (hall a ha))
    exact ⟨_, by simp only [concat_go]; rw [hbs, except_ok_bind]⟩
  | decimal64 pr sc =>
    intro _ arrays hall
    obtain ⟨bs, hbs⟩ := mapM_ok_of_forall _ (fun a ha => as_decimal64_total (hall a ha))
    exact ⟨_, by simp only [concat_go]; rw [hbs, except_ok_bind]⟩
  | decimal128 pr sc =>
    intro _ arrays hall
    obtain ⟨bs, hbs⟩ := mapM_ok_of_forall _ (fun a ha => as_decimal128_total (hall a ha))
    exact ⟨_, by simp only [concat_go]; rw [hbs, except_ok_bind]⟩
  | timestamp tu =>
    intro _ arrays hall
    obtain ⟨bs, hbs⟩ := mapM_ok_of_forall _ (fun a ha => as_timestamp_total (hall a ha))
    exact ⟨_, by simp only [concat_go]; rw [hbs, except_ok_bind]⟩
  | struct =>
    intro hsf
    simp [struct_free] at hsf
  | list meta ih =>
    intro hsf arrays hall
    obtain ⟨arrs, harrs⟩ := mapM_ok_of_forall _ (fun a ha => as_list_total (hall a ha))
    obtain ⟨inner, hinner⟩ :=
      ih (by simpa [struct_free] using hsf) _ (as_list_children_datatype harrs)
    exact ⟨_, by simp only [concat_go]; rw [harrs, except_ok_bind, hinner, except_ok_bind]⟩

/-- When all inputs share a datatype that contains `struct` (at any
list-nesting depth), `concat_go` fails with the `struct concat`
not-implemented error. -/
theorem concat_go_struct_error :
    ∀ (d : DataType), struct_free d = false →
      ∀ (arrays : List Array), (∀ a ∈ arrays, a.datatype = d) →
        concat_go d arrays = .error (.notImplemented "struct concat") := by
  intro d
  induction d with
  | null =>
    intro hsf
    simp [struct_free] at hsf
  | boolean =>
    intro hsf
    simp [struct_free] at hsf
  | float32 =>
    intro hsf
    simp [struct_free] at hsf
  | float64 =>
    intro hsf
    simp [struct_free] at hsf
  | int8 =>
    intro hsf
    simp [struct_free] at hsf
  | int16 =>
    intro hsf
    simp [struct_free] at hsf
  | int32 =>
    intro hsf
    simp [struct_free] at hsf
  | int64 =>
    intro hsf
    simp [struct_free] at hsf
  | int128 =>
    intro hsf
    simp [struct_free] at hsf
  | uint8 =>
    intro hsf
    simp [struct_free] at hsf
  | uint16 =>
    intro hsf
    simp [struct_free] at hsf
  | uint32 =>
    intro hsf
    simp [struct_free] at hsf
  | uint64 =>
    intro hsf
    simp [struct_free] at hsf
  | uint128 =>
    intro hsf
    simp [struct_free] at hsf
  | date32 =>
    intro hsf
    simp [struct_free] at hsf
  | date64 =>
    intro hsf
    simp [struct_free] at hsf
  | interval =>
    intro hsf
    simp [struct_free] at hsf
  | utf8 =>
    intro hsf
    simp [struct_free] at hsf
  | largeUtf8 =>
    intro hsf
    simp [struct_free] at hsf
  | binary =>
    intro hsf
    simp [struct_free] at hsf
  | largeBinary =>
    intro hsf
    simp [struct_free] at hsf
  | decimal64 pr sc =>
    intro hsf
    simp [struct_free] at hsf
  | decimal128 pr sc =>
    intro hsf
    simp [struct_free] at hsf
  | timestamp tu =>
    intro hsf
    simp [struct_free] at hsf
  | struct =>
    intro _ arrays _
    simp only [concat_go]
  | list meta ih =>
    intro hsf arrays hall
    obtain ⟨arrs, harrs⟩ := mapM_ok_of_forall _ (fun a ha => as_list_total (hall a ha))
    have hin := ih (by simpa [struct_free] using hsf) _ (as_list_children_datatype harrs)
    simp only [concat_go]
    rw [harrs, except_ok_bind, hin, except_error_bind]

/-- If some input's datatype differs from the branch datatype `d` (the
first input's) and `d` is not `struct`, `concat_go` fails with a
type-mismatch error. -/
theorem concat_go_mismatch {d : DataType} {arrays : List Array}
    (hne : ∃ a ∈ arrays, a.datatype ≠ d) (hd : d ≠ .struct) :
    ∃ p q, concat_go d arrays = .error (.typeMismatch p q) := by
  cases d with
  | null =>
    obtain ⟨a0, ha0, hne0⟩ := hne
    cases hm : arrays.mapM (as_null DataType.null) with
    | error e =>
      obtain ⟨a, _, hae⟩ := mapM_error_mem _ hm
      obtain ⟨p, q, rfl⟩ := as_null_error hae
      exact ⟨p, q, by simp only [concat_go]; rw [hm, except_error_bind]⟩
    | ok bs =>
      exfalso
      obtain ⟨b, hab⟩ := forall₂_mem_l (mapM_ok_forall₂ _ hm) a0 ha0
      exact hne0 (by rw [(as_null_ok hab).1]; exact (as_null_ok hab).2)
  | boolean =>
    obtain ⟨a0, ha0, hne0⟩ := hne
    cases hm : arrays.mapM (as_boolean DataType.boolean) with
    | error e =>
      obtain ⟨a, _, hae⟩ := mapM_error_mem _ hm
      obtain ⟨p, q, rfl⟩ := as_boolean_error hae
      exact ⟨p, q, by simp only [concat_go]; rw [hm, except_error_bind]⟩
    | ok bs =>
      exfalso
      obtain ⟨b, hab⟩ := forall₂_mem_l (mapM_ok_forall₂ _ hm) a0 ha0
      exact hne0 (by rw [(as_boolean_ok hab).1]; exact (as_boolean_ok hab).2)
  | float32 =>
    obtain ⟨a0, ha0, hne0⟩ := hne
    cases hm : arrays.mapM (as_float32 DataType.float32) with
    | error e =>
      obtain ⟨a, _, hae⟩ := mapM_error_mem _ hm
      obtain ⟨p, q, rfl⟩ := as_float32_error hae
      exact ⟨p, q, by simp only [concat_go]; rw [hm, except_error_bind]⟩
    | ok bs =>
      exfalso
      obtain ⟨b, hab⟩ := forall₂_mem_l (mapM_ok_forall₂ _ hm) a0 ha0
      exact hne0 (by rw [(as_float32_ok hab).1]; exact (as_float32_ok hab).2)
  | float64 =>
    obtain ⟨a0, ha0, hne0⟩ := hne
    cases hm : arrays.mapM (as_float64 DataType.float64) with
    | error e =>
      obtain ⟨a, _, hae⟩ := mapM_error_mem _ hm
      obtain ⟨p, q, rfl⟩ := as_float64_error hae
      exact ⟨p, q, by simp only [concat_go]; rw [hm, except_error_bind]⟩
    | ok bs =>
      exfalso
      obtain ⟨b, hab⟩ := forall₂_mem_l (mapM_ok_forall₂ _ hm) a0 ha0
      exact hne0 (by rw [(as_float64_ok hab).1]; exact (as_float64_ok hab).2)
  | int8 =>
    obtain ⟨a0, ha0, hne0⟩ := hne
    cases hm : arrays.mapM (as_int8 DataType.int8) with
    | error e =>
      obtain ⟨a, _, hae⟩ := mapM_error_mem _ hm
      obtain ⟨p, q, rfl⟩ := as_int8_error hae
      exact ⟨p, q, by simp only [concat_go]; rw [hm, except_error_bind]⟩
    | ok bs =>
      exfalso
      obtain ⟨b, hab⟩ := forall₂_mem_l (mapM_ok_forall₂ _ hm) a0 ha0
      exact hne0 (by rw [(as_int8_ok hab).1]; exact (as_int8_ok hab).2)
  | int16 =>
    obtain ⟨a0, ha0, hne0⟩ := hne
    cases hm : arrays.mapM (as_int16 DataType.int16) with
    | error e =>
      obtain ⟨a, _, hae⟩ := mapM_error_mem _ hm
      obtain ⟨p, q, rfl⟩ := as_int16_error hae
      exact ⟨p, q, by simp only [concat_go]; rw [hm, except_error_bind]⟩
    | ok bs =>
      exfalso
      obtain ⟨b, hab⟩ := forall₂_mem_l (mapM_ok_forall₂ _ hm) a0 ha0
      exact hne0 (by rw [(as_int16_ok hab).1]; exact (as_int16_ok hab).2)
  | int32 =>
    obtain ⟨a0, ha0, hne0⟩ := hne
    cases hm : arrays.mapM (as_int32 DataType.int32) with
    | error e =>
      obtain ⟨a, _, hae⟩ := mapM_error_mem _ hm
      obtain ⟨p, q, rfl⟩ := as_int32_error hae
      exact ⟨p, q, by simp only [concat_go]; rw [hm, except_error_bind]⟩
    | ok bs =>
      exfalso
      obtain ⟨b, hab⟩ := forall₂_mem_l (mapM_ok_forall₂ _ hm) a0 ha0
      exact hne0 (by rw [(as_int32_ok hab).1]; exact (as_int32_ok hab).2)
  | int64 =>
    obtain ⟨a0, ha0, hne0⟩ := hne
    cases hm : arrays.mapM (as_int64 DataType.int64) with
    | error e =>
      obtain ⟨a, _, hae⟩ := mapM_error_mem _ hm
      obtain ⟨p, q, rfl⟩ := as_int64_error hae
      exact ⟨p, q, by simp only [concat_go]; rw [hm, except_error_bind]⟩
    | ok bs =>
      exfalso
      obtain ⟨b, hab⟩ := forall₂_mem_l (mapM_ok_forall₂ _ hm) a0 ha0
      exact hne0 (by rw [(as_int64_ok hab).1]; exact (as_int64_ok hab).2)
  | int128 =>
    obtain ⟨a0, ha0, hne0⟩ := hne
    cases hm : arrays.mapM (as_int128 DataType.int128) with
    | error e =>
      obtain ⟨a, _, hae⟩ := mapM_error_mem _ hm
      obtain ⟨p, q, rfl⟩ := as_int128_error hae
      exact ⟨p, q, by simp only [concat_go]; rw [hm, except_error_bind]⟩
    | ok bs =>
      exfalso
      obtain ⟨b, hab⟩ := forall₂_mem_l (mapM_ok_forall₂ _ hm) a0 ha0
      exact hne0 (by rw [(as_int128_ok hab).1]; exact (as_int128_ok hab).2)
  | uint8 =>
    obtain ⟨a0, ha0, hne0⟩ := hne
    cases hm : arrays.mapM (as_uint8 DataType.uint8) with
    | error e =>
      obtain ⟨a, _, hae⟩ := mapM_error_mem _ hm
      obtain ⟨p, q, rfl⟩ := as_uint8_error hae
      exact ⟨p, q, by simp only [concat_go]; rw [hm, except_error_bind]⟩
    | ok bs =>
      exfalso
      obtain ⟨b, hab⟩ := forall₂_mem_l (mapM_ok_forall₂ _ hm) a0 ha0
      exact hne0 (by rw [(as_uint8_ok hab).1]; exact (as_uint8_ok hab).2)
  | uint16 =>
    obtain ⟨a0, ha0, hne0⟩ := hne
    cases hm : arrays.mapM (as_uint16 DataType.uint16) with
    | error e =>
      obtain ⟨a, _, hae⟩ := mapM_error_mem _ hm
      obtain ⟨p, q, rfl⟩ := as_uint16_error hae
      exact ⟨p, q, by simp only [concat_go]; rw [hm, except_error_bind]⟩
    | ok bs =>
      exfalso
      obtain ⟨b, hab⟩ := forall₂_mem_l (mapM_ok_forall₂ _ hm) a0 ha0
      exact hne0 (by rw [(as_uint16_ok hab).1]; exact (as_uint16_ok hab).2)
  | uint32 =>
    obtain ⟨a0, ha0, hne0⟩ := hne
    cases hm : arrays.mapM (as_uint32 DataType.uint32) with
    | error e =>
      obtain ⟨a, _, hae⟩ := mapM_error_mem _ hm
      obtain ⟨p, q, rfl⟩ := as_uint32_error hae
      exact ⟨p, q, by simp only [concat_go]; rw [hm, except_error_bind]⟩
    | ok bs =>
      exfalso
      obtain ⟨b, hab⟩ := forall₂_mem_l (mapM_ok_forall₂ _ hm) a0 ha0
      exact hne0 (by rw [(as_uint32_ok hab).1]; exact (as_uint32_ok hab).2)
  | uint64 =>
    obtain ⟨a0, ha0, hne0⟩ := hne
    cases hm : arrays.mapM (as_uint64 DataType.uint64) with
    | error e =>
      obtain ⟨a, _, hae⟩ := mapM_error_mem _ hm
      obtain ⟨p, q, rfl⟩ := as_uint64_error hae
      exact ⟨p, q, by simp only [concat_go]; rw [hm, except_error_bind]⟩
    | ok bs =>
      exfalso
      obtain ⟨b, hab⟩ := forall₂_mem_l (mapM_ok_forall₂ _ hm) a0 ha0
      exact hne0 (by rw [(as_uint64_ok hab).1]; exact (as_uint64_ok hab).2)
  | uint128 =>
    obtain ⟨a0, ha0, hne0⟩ := hne
    cases hm : arrays.mapM (as_uint128 DataType.uint128) with
    | error e =>
      obtain ⟨a, _, hae⟩ := mapM_error_mem _ hm
      obtain ⟨p, q, rfl⟩ := as_uint128_error hae
      exact ⟨p, q, by simp only [concat_go]; rw [hm, except_error_bind]⟩
    | ok bs =>
      exfalso
      obtain ⟨b, hab⟩ := forall₂_mem_l (mapM_ok_forall₂ _ hm) a0 ha0
      exact hne0 (by rw [(as_uint128_ok hab).1]; exact (as_uint128_ok hab).2)
  | date32 =>
    obtain ⟨a0, ha0, hne0⟩ := hne
    cases hm : arrays.mapM (as_date32 DataType.date32) with
    | error e =>
      obtain ⟨a, _, hae⟩ := mapM_error_mem _ hm
      obtain ⟨p, q, rfl⟩ := as_date32_error hae
      exact ⟨p, q, by simp only [concat_go]; rw [hm, except_error_bind]⟩
    | ok bs =>
      exfalso
      obtain ⟨b, hab⟩ := forall₂_mem_l (mapM_ok_forall₂ _ hm) a0 ha0
      exact hne0 (by rw [(as_date32_ok hab).1]; exact (as_date32_ok hab).2)
  | date64 =>
    obtain ⟨a0, ha0, hne0⟩ := hne
    cases hm : arrays.mapM (as_date64 DataType.date64) with
    | error e =>
      obtain ⟨a, _, hae⟩ := mapM_error_mem _ hm
      obtain ⟨p, q, rfl⟩ := as_date64_error hae
      exact ⟨p, q, by simp only [concat_go]; rw [hm, except_error_bind]⟩
    | ok bs =>
      exfalso
      obtain ⟨b, hab⟩ := forall₂_mem_l (mapM_ok_forall₂ _ hm) a0 ha0
      exact hne0 (by rw [(as_date64_ok hab).1]; exact (as_date64_ok hab).2)
  | interval =>
    obtain ⟨a0, ha0, hne0⟩ := hne
    cases hm : arrays.mapM (as_interval DataType.interval) with
    | error e =>
      obtain ⟨a, _, hae⟩ := mapM_error_mem _ hm
      obtain ⟨p, q, rfl⟩ := as_interval_error hae
      exact ⟨p, q, by simp only [concat_go]; rw [hm, except_error_bind]⟩
    | ok bs =>
      exfalso
      obtain ⟨b, hab⟩ := forall₂_mem_l (mapM_ok_forall₂ _ hm) a0 ha0
      exact hne0 (by rw [(as_interval_ok hab).1]; exact (as_interval_ok hab).2)
  | utf8 =>
    obtain ⟨a0, ha0, hne0⟩ := hne
    cases hm : arrays.mapM (as_utf8 DataType.utf8) with
    | error e =>
      obtain ⟨a, _, hae⟩ := mapM_error_mem _ hm
      obtain ⟨p, q, rfl⟩ := as_utf8_error hae
      exact ⟨p, q, by simp only [concat_go]; rw [hm, except_error_bind]⟩
    | ok bs =>
      exfalso
      obtain ⟨b, hab⟩ := forall₂_mem_l (mapM_ok_forall₂ _ hm) a0 ha0
      exact hne0 (by rw [(as_utf8_ok hab).1]; exact (as_utf8_ok hab).2)
  | largeUtf8 =>
    obtain ⟨a0, ha0, hne0⟩ := hne
    cases hm : arrays.mapM (as_large_utf8 DataType.largeUtf8) with
    | error e =>
      obtain ⟨a, _, hae⟩ := mapM_error_mem _ hm
      obtain ⟨p, q, rfl⟩ := as_large_utf8_error hae
      exact ⟨p, q, by simp only [concat_go]; rw [hm, except_error_bind]⟩
    | ok bs =>
      exfalso
      obtain ⟨b, hab⟩ := forall₂_mem_l (mapM_ok_forall₂ _ hm) a0 ha0
      exact hne0 (by rw [(as_large_utf8_ok hab).1]; exact (as_large_utf8_ok hab).2)
  | binary =>
    obtain ⟨a0, ha0, hne0⟩ := hne
    cases hm : arrays.mapM (as_binary DataType.binary) with
    | error e =>
      obtain ⟨a, _, hae⟩ := mapM_error_mem _ hm
      obtain ⟨p, q, rfl⟩ := as_binary_error hae
      exact ⟨p, q, by simp only [concat_go]; rw [hm, except_error_bind]⟩
    | ok bs =>
      exfalso
      obtain ⟨b, hab⟩ := forall₂_mem_l (mapM_ok_forall₂ _ hm) a0 ha0
      exact hne0 (by rw [(as_binary_ok hab).1]; exact (as_binary_ok hab).2)
  | largeBinary =>
    obtain ⟨a0, ha0, hne0⟩ := hne
    cases hm : arrays.mapM (as_large_binary DataType.largeBinary) with
    | error e =>
      obtain ⟨a, _, hae⟩ := mapM_error_mem _ hm
      obtain ⟨p, q, rfl⟩ := as_large_binary_error hae
      exact ⟨p, q, by simp only [concat_go]; rw [hm, except_error_bind]⟩
    | ok bs =>
      exfalso
      obtain ⟨b, hab⟩ := forall₂_mem_l (mapM_ok_forall₂ _ hm) a0 ha0
      exact hne0 (by rw [(as_large_binary_ok hab).1]; exact (as_large_binary_ok hab).2)
  | decimal64 pr sc =>
    obtain ⟨a0, ha0, hne0⟩ := hne
    cases hm : arrays.mapM (as_decimal64 (DataType.decimal64 pr sc)) with
    | error e =>
      obtain ⟨a, _, hae⟩ := mapM_error_mem _ hm
      obtain ⟨p, q, rfl⟩ := as_decimal64_error hae
      exact ⟨p, q, by simp only [concat_go]; rw [hm, except_error_bind]⟩
    | ok bs =>
      exfalso
      obtain ⟨b, hab⟩ := forall₂_mem_l (mapM_ok_forall₂ _ hm) a0 ha0
      exact hne0 (by rw [(as_decimal64_ok hab).1]; exact (as_decimal64_ok hab).2)
  | decimal128 pr sc =>
    obtain ⟨a0, ha0, hne0⟩ := hne
    cases hm : arrays.mapM (as_decimal128 (DataType.decimal128 pr sc)) with
    | error e =>
      obtain ⟨a, _, hae⟩ := mapM_error_mem _ hm
      obtain ⟨p, q, rfl⟩ := as_decimal128_error hae
      exact ⟨p, q, by simp only [concat_go]; rw [hm, except_error_bind]⟩
    | ok bs =>
      exfalso
      obtain ⟨b, hab⟩ := forall₂_mem_l (mapM_ok_forall₂ _ hm) a0 ha0
      exact hne0 (by rw [(as_decimal128_ok hab).1]; exact (as_decimal128_ok hab).2)
  | timestamp tu =>
    obtain ⟨a0, ha0, hne0⟩ := hne
    cases hm : arrays.mapM (as_timestamp (DataType.timestamp tu)) with
    | error e =>
      obtain ⟨a, _, hae⟩ := mapM_error_mem _ hm
      obtain ⟨p, q, rfl⟩ := as_timestamp_error hae
      exact ⟨p, q, by simp only [concat_go]; rw [hm, except_error_bind]⟩
    | ok bs =>
      exfalso
      obtain ⟨b, hab⟩ := forall₂_mem_l (mapM_ok_forall₂ _ hm) a0 ha0
      exact hne0 (by rw [(as_timestamp_ok hab).1]; exact (as_timestamp_ok hab).2)
  | struct => exact absurd rfl hd
  | list meta =>
    obtain ⟨a0, ha0, hne0⟩ := hne
    cases hm : arrays.mapM (as_list (.list meta)) with
    | error e =>
      obtain ⟨a, _, hae⟩ := mapM_error_mem _ hm
      obtain ⟨p, q, rfl⟩ := as_list_error hae
      exact ⟨p, q, by simp only [concat_go]; rw [hm, except_error_bind]⟩
    | ok bs =>
      exfalso
      obtain ⟨b, hab⟩ := forall₂_mem_l (mapM_ok_forall₂ _ hm) a0 ha0
      exact hne0 (by rw [(as_list_ok hab).1]; exact (as_list_ok hab).2)

theorem getLast?_map {α β : Type} (f : α → β) :
    ∀ (l : List α), (l.map f).getLast? = l.getLast?.map f := by
  intro l
  induction l with
  | nil => rfl
  | cons x t ih =>
    cases t with
    | nil => rfl
    | cons y t2 =>
      simp only [List.map_cons] at ih ⊢
      rw [List.getLast?_cons_cons, ih, List.getLast?_cons_cons]

/-- Fold invariant for the offset-building loop of `concat_list`: given
well-formed input offset arrays (leading zero, monotone), the loop
preserves nonemptiness, the head, monotonicity, the "running base is
the last offset" property, and accumulates into the base the last
offset of each input. -/
theorem concat_list_offsets_fold_invariant :
    ∀ (ols : List (List Int)) (acc : List Int) (start : Int),
      acc ≠ [] → acc.getLast? = some start → List.Chain' (· ≤ ·) acc →
      (∀ o ∈ ols, o.head? = some 0 ∧ List.Chain' (· ≤ ·) o) →
      (ols.foldl concat_list_offsets_step (acc, start)).1 ≠ []
        ∧ (ols.foldl concat_list_offsets_step (acc, start)).1.head? = acc.head?
        ∧ List.Chain' (· ≤ ·) (ols.foldl concat_list_offsets_step (acc, start)).1
        ∧ (ols.foldl concat_list_offsets_step (acc, start)).1.getLast?
            = some (ols.foldl concat_list_offsets_step (acc, start)).2
        ∧ (ols.foldl concat_list_offsets_step (acc, start)).2
            = start + (ols.map fun o => (o.getLast?).getD 0).sum := by
  intro ols
  induction ols with
  | nil =>
    intro acc start h1 h2 h3 _
    exact ⟨h1, rfl, h3, h2, by simp⟩
  | cons o rest ih =>
    intro acc start h1 h2 h3 h4
    obtain ⟨ho1, ho2⟩ := h4 o (by simp)
    obtain ⟨t, rfl⟩ : ∃ t, o = 0 :: t := by
      cases o with
      | nil => simp at ho1
      | cons x t =>
        simp only [List.head?_cons, Option.some.injEq] at ho1
        exact ⟨t, by rw [ho1]⟩
    cases t with
    | nil =>
      have hstep : concat_list_offsets_step (acc, start) [0] = (acc, start) := by
        simp [concat_list_offsets_step, h2]
      rw [List.foldl_cons, hstep]
      obtain ⟨r1, r2, r3, r4, r5⟩ := ih acc start h1 h2 h3 fun x hx => h4 x (by simp [hx])
      refine ⟨r1, r2, r3, r4, ?_⟩
      rw [r5]
      simp
    | cons v t2 =>
      have hv : (0 : Int) ≤ v := (List.chain'_cons.mp ho2).1
      have hchain_vt : List.Chain' (· ≤ ·) (v :: t2) := (List.chain'_cons.mp ho2).2
      have hm_ne : (v :: t2).map (fun x => x + start) ≠ [] := by simp
      have hacc'_ne : acc ++ (v :: t2).map (fun x => x + start) ≠ [] := by simp [h1]
      obtain ⟨L, hL⟩ : ∃ L, (v :: t2).getLast? = some L := by
        cases hgl : (v :: t2).getLast? with
        | none => rw [List.getLast?_eq_none_iff] at hgl; simp at hgl
        | some L => exact ⟨L, rfl⟩
      have hlast' : (acc ++ (v :: t2).map (fun x => x + start)).getLast?
          = some (L + start) := by
        rw [List.getLast?_append_of_ne_nil _ hm_ne, getLast?_map, hL]
        rfl
      have hchain' : List.Chain' (· ≤ ·) (acc ++ (v :: t2).map (fun x => x + start)) := by
        rw [List.chain'_append]
        refine ⟨h3, ?_, ?_⟩
        · rw [List.chain'_map]
          exact hchain_vt.imp fun a b hab => by omega
        · intro x hx y hy
          rw [h2] at hx
          simp only [Option.mem_def, Option.some.injEq] at hx
          simp only [List.map_cons, List.head?_cons, Option.mem_def,
            Option.some.injEq] at hy
          omega
      have hstep : concat_list_offsets_step (acc, start) (0 :: v :: t2)
          = (acc ++ (v :: t2).map (fun x => x + start), L + start) := by
        simp only [concat_list_offsets_step, List.drop_succ_cons, List.drop_zero]
        rw [hlast']
        rfl
      rw [List.foldl_cons, hstep]
      obtain ⟨r1, r2, r3, r4, r5⟩ :=
        ih _ (L + start) hacc'_ne hlast' hchain' fun x hx => h4 x (by simp [hx])
      refine ⟨r1, ?_, r3, r4, ?_⟩
      · rw [r2]
        cases acc with
        | nil => exact absurd rfl h1
        | cons a acc2 => simp
      · rw [r5, List.map_cons, List.getLast?_cons_cons, hL]
        simp only [List.sum_cons, Option.getD_some]
        ring

theorem concat_list_offsets_wf (ols : List (List Int))
    (h : ∀ o ∈ ols, o.head? = some 0 ∧ List.Chain' (· ≤ ·) o) :
    (concat_list_offsets ols).head? = some 0
      ∧ List.Chain' (· ≤ ·) (concat_list_offsets ols)
      ∧ (concat_list_offsets ols).getLast?
          = some ((ols.map fun o => (o.getLast?).getD 0).sum) := by
  obtain ⟨_, r2, r3, r4, r5⟩ :=
    concat_list_offsets_fold_invariant ols [0] 0 (by simp) rfl (by simp) h
  refine ⟨by rw [concat_list_offsets, r2]; rfl, r3, ?_⟩
  rw [concat_list_offsets, r4, r5]
  simp

theorem forall₂_map_left_ok {m : DataType}
    {inputs : List (Array × List Int × Option Validity)} {arrs : List ListPayload}
    (h : (inputs.map fun t => Array.list t.1 t.2.1 t.2.2).mapM (as_list (.list m))
        = .ok arrs) :
    List.Forall₂ (fun (t : Array × List Int × Option Validity) (b : ListPayload) =>
      b.child = t.1 ∧ b.offsets = t.2.1 ∧ b.validity = t.2.2) inputs arrs := by
  have hfa := mapM_ok_forall₂ _ h
  rw [List.forall₂_map_left_iff] at hfa
  refine hfa.imp fun {t b} hab => ?_
  have h1 := (as_list_ok hab).1
  injection h1 with hchild hoffs hval
  exact ⟨hchild.symm, hoffs.symm, hval.symm⟩

/-- C4: on list arrays, a successful `concat` returns a list array whose
child is the recursive concat of the input children and whose offsets
are built by the running-base algorithm; when the input offset arrays
are well formed (leading 0, monotone, last equals child length) the
result offsets start at 0, are monotone non-decreasing, and end at the
total child length. -/
theorem concat_list_spec
    (inputs : List (Array × List Int × Option Validity)) (out : Array)
    (hok : concat (inputs.map fun t => Array.list t.1 t.2.1 t.2.2) = .ok out)
    (hwf : ∀ t ∈ inputs, t.2.1.head? = some 0 ∧ List.Chain' (· ≤ ·) t.2.1
        ∧ t.2.1.getLast? = some (t.1.len : Int)) :
    ∃ child offsets validity,
      out = Array.list child offsets validity
        ∧ concat (inputs.map fun t => t.1) = .ok child
        ∧ offsets = concat_list_offsets (inputs.map fun t => t.2.1)
        ∧ offsets.head? = some 0
        ∧ List.Chain' (· ≤ ·) offsets
        ∧ offsets.getLast? = some (child.len : Int) := by
  cases inputs with
  | nil => exact absurd hok (by simp [concat])
  | cons t0 rest =>
    simp only [List.map_cons, concat, Array.datatype] at hok
    rcases except_bind_ok.mp hok with ⟨arrs, harrs, h2⟩
    rcases except_bind_ok.mp h2 with ⟨inner, hinner, h3⟩
    have h4 : Array.list inner
        (concat_list_offsets (arrs.map fun a => a.offsets))
        (concat_validities (arrs.map fun a => (a.offsets.length - 1, a.validity)))
        = out := by injection h3
    have hf2 := @forall₂_map_left_ok t0.1.datatype (t0 :: rest) arrs (by
      simp only [List.map_cons]; exact harrs)
    have hoffs : arrs.map (fun b => b.offsets) = (t0 :: rest).map (fun t => t.2.1) :=
      forall₂_map_eq (hf2.imp fun {t b} hab => hab.2.1)
    have hchild : arrs.map (fun b => b.child) = (t0 :: rest).map (fun t => t.1) :=
      forall₂_map_eq (hf2.imp fun {t b} hab => hab.1)
    have hwf2 : ∀ o ∈ (t0 :: rest).map (fun t => t.2.1),
        o.head? = some 0 ∧ List.Chain' (· ≤ ·) o := by
      intro o ho
      rw [List.mem_map] at ho
      obtain ⟨t, ht, rfl⟩ := ho
      exact ⟨(hwf t ht).1, (hwf t ht).2.1⟩
    obtain ⟨w1, w2, w3⟩ := concat_list_offsets_wf _ hwf2
    have hinner2 : concat ((t0 :: rest).map fun t => t.1) = .ok inner := by
      simp only [List.map_cons, concat]
      rw [← List.map_cons (fun t => t.1) t0 rest, ← hchild]
      exact hinner
    refine ⟨inner, concat_list_offsets ((t0 :: rest).map fun t => t.2.1), _,
      by rw [← h4, hoffs], hinner2, rfl, w1, w2, ?_⟩
    rw [w3]
    have hlen : inner.len = ((t0 :: rest).map fun t => t.1.len).sum := by
      rw [concat_go_ok_len hinner, hchild, List.map_map]
      rfl
    have hsum : (((t0 :: rest).map fun t => t.2.1).map fun o => (o.getLast?).getD 0)
        = ((t0 :: rest).map fun t => (t.1.len : Int)) := by
      rw [List.map_map]
      refine List.map_congr_left ?_
      intro t ht
      have := (hwf t ht).2.2
      simp [Function.comp, this]
    rw [hsum, hlen]
    congr 1
    rw [Nat.cast_list_sum, List.map_map]
    rfl

/-- C3 (amended): for every non-empty list of arrays sharing a
struct-free datatype, `concat` succeeds and the result length is the
sum of the input lengths. -/
theorem concat_len_sum (arrays : List Array) (d : DataType)
    (hne : arrays ≠ []) (hall : ∀ a ∈ arrays, a.datatype = d)
    (hsf : struct_free d = true) :
    ∃ out, concat arrays = .ok out ∧ out.len = (arrays.map Array.len).sum := by
  cases arrays with
  | nil => exact absurd rfl hne
  | cons a rest =>
    obtain ⟨out, hout⟩ := concat_go_ok_of_struct_free d hsf _ hall
    refine ⟨out, ?_, concat_go_ok_len hout⟩
    simp only [concat]
    rw [hall a (by simp)]
    exact hout

/-- C3 counterexample: a single list-of-struct array has a same (and
non-struct) datatype, yet `concat` fails, so "non-struct datatype"
does not suffice for success. -/
theorem concat_len_sum_cex :
    (Array.list (Array.struct 1 []) [0, 1] none).datatype ≠ DataType.struct
      ∧ concat [Array.list (Array.struct 1 []) [0, 1] none]
          = .error (.notImplemented "struct concat") := by
  exact ⟨by decide, rfl⟩

theorem concat_len_sum_witness :
    ∃ out, concat [Array.int64 ⟨[1], none⟩, Array.int64 ⟨[2, 3], none⟩] = .ok out
      ∧ out.len = 3 := by
  obtain ⟨out, h1, h2⟩ :=
    concat_len_sum [Array.int64 ⟨[1], none⟩, Array.int64 ⟨[2, 3], none⟩]
      DataType.int64 (by simp) (by simp [Array.datatype]) rfl
  exact ⟨out, h1, by rw [h2]; rfl⟩

/-- C5 (amended): `concat` fails on the empty input list with the
invalid-argument message; succeeds for same-datatype inputs whose shared
datatype is struct-free; fails with `NotImplemented` when the shared
datatype is struct or (recursively) contains struct; and fails with a
type-mismatch error when some input's datatype differs from the first's
(and the first's is not struct, in which case `NotImplemented` wins). -/
theorem concat_error_cases :
    (concat [] = .error (.message "Cannot concat zero arrays"))
    ∧ (∀ (a : Array) (rest : List Array),
        (∀ b ∈ a :: rest, b.datatype = a.datatype) →
        struct_free a.datatype = true →
          ∃ out, concat (a :: rest) = .ok out)
    ∧ (∀ (a : Array) (rest : List Array),
        (∀ b ∈ a :: rest, b.datatype = a.datatype) →
        struct_free a.datatype = false →
          concat (a :: rest) = .error (.notImplemented "struct concat"))
    ∧ (∀ (a : Array) (rest : List Array),
        (∃ b ∈ a :: rest, b.datatype ≠ a.datatype) → a.datatype ≠ .struct →
          ∃ p q, concat (a :: rest) = .error (.typeMismatch p q)) := by
  refine ⟨rfl, ?_, ?_, ?_⟩
  · intro a rest hall hsf
    obtain ⟨out, hout⟩ := concat_go_ok_of_struct_free _ hsf _ hall
    exact ⟨out, by simp only [concat]; exact hout⟩
  · intro a rest hall hsf
    simp only [concat]
    exact concat_go_struct_error _ hsf _ hall
  · intro a rest hne hd
    obtain ⟨p, q, h⟩ := concat_go_mismatch hne hd
    exact ⟨p, q, by simp only [concat]; exact h⟩

/-- C5 counterexample: two list-of-struct arrays share one datatype
that is not `struct` itself, yet `concat` errors — refuting "for all
other same-datatype inputs it succeeds". -/
theorem concat_error_cases_cex :
    (∀ b ∈ [Array.list (Array.struct 1 []) [0, 1] none,
            Array.list (Array.struct 2 []) [0, 2] none],
        b.datatype = DataType.list DataType.struct)
      ∧ DataType.list DataType.struct ≠ DataType.struct
      ∧ concat [Array.list (Array.struct 1 []) [0, 1] none,
                Array.list (Array.struct 2 []) [0, 2] none]
          = .error (.notImplemented "struct concat") := by
  refine ⟨?_, by decide, rfl⟩
  intro b hb
  rcases List.mem_cons.mp hb with rfl | hb2
  · rfl
  · rcases List.mem_cons.mp hb2 with rfl | hb3
    · rfl
    · simp at hb3

theorem concat_error_cases_witness :
    (∃ p q, concat [Array.int64 ⟨[1], none⟩, Array.int32 ⟨[2], none⟩]
        = .error (.typeMismatch p q))
    ∧ concat [Array.list (Array.struct 3 []) [0, 3] none]
        = .error (.notImplemented "struct concat") := by
  constructor
  · refine concat_error_cases.2.2.2 (Array.int64 ⟨[1], none⟩) [Array.int32 ⟨[2], none⟩]
      ⟨Array.int32 ⟨[2], none⟩, by simp, by decide⟩ (by decide)
  · exact concat_error_cases.2.2.1 (Array.list (Array.struct 3 []) [0, 3] none) []
      (by intro b hb; rcases List.mem_cons.mp hb with rfl | hb2
          · rfl
          · simp at hb2)
      rfl

theorem concat_list_spec_witness :
    ∃ child offsets validity,
      concat [Array.list (.utf8 ⟨["a", "c"], none⟩) [0, 2] none,
              Array.list (.utf8 ⟨["f"], none⟩) [0, 1] none,
              Array.list (.utf8 ⟨["g", "h", "i"], none⟩) [0, 3] none]
        = .ok (Array.list child offsets validity)
      ∧ offsets = [0, 2, 3, 6]
      ∧ offsets.head? = some 0
      ∧ List.Chain' (· ≤ ·) offsets
      ∧ offsets.getLast? = some (child.len : Int) := by
  obtain ⟨child, offsets, validity, h1, _, h3, h4, h5, h6⟩ :=
    concat_list_spec
      [(.utf8 ⟨["a", "c"], none⟩, [0, 2], none),
       (.utf8 ⟨["f"], none⟩, [0, 1], none),
       (.utf8 ⟨["g", "h", "i"], none⟩, [0, 3], none)]
      (Array.list (.utf8 ⟨["a", "c", "f", "g", "h", "i"], none⟩) [0, 2, 3, 6] none)
      rfl
      (by intro t ht
          rcases List.mem_cons.mp ht with rfl | ht2
          · exact ⟨rfl, by norm_num [List.chain'_cons], by decide⟩
          · rcases List.mem_cons.mp ht2 with rfl | ht3
            · exact ⟨rfl, by norm_num [List.chain'_cons], by decide⟩
            · rcases List.mem_cons.mp ht3 with rfl | ht4
              · exact ⟨rfl, by norm_num [List.chain'_cons], by decide⟩
              · simp at ht4)
  refine ⟨child, offsets, validity, by rw [← h1]; rfl, by rw [h3]; rfl, h4, h5, h6⟩

theorem option_mapM_none {α β : Type} (f : α → Option β) :
    ∀ {l : List α} {a : α}, a ∈ l → f a = none → l.mapM f = none := by
  intro l
  induction l with
  | nil => intro a ha; simp at ha
  | cons x rest ih =>
    intro a ha hfa
    rw [List.mapM_cons]
    rcases List.mem_cons.mp ha with rfl | ha2
    · rw [hfa]; rfl
    · rw [ih ha2 hfa]
      cases hfx : f x <;> rfl

/-- C6 (amended): `concat_batches` of the empty list is the empty
batch; a non-empty input errors when some batch has FEWER columns than
the first batch. (Extra columns beyond the first batch's width are
ignored, not detected.) -/
theorem concat_batches_cases :
    (concat_batches [] = .ok Batch.empty)
    ∧ (∀ (b0 : Batch) (rest : List Batch),
        (∃ b ∈ b0 :: rest, b.num_columns < b0.num_columns) →
          ∃ e, concat_batches (b0 :: rest) = .error e) := by
  refine ⟨rfl, ?_⟩
  intro b0 rest ⟨b, hb, hlt⟩
  cases hcb : concat_batches (b0 :: rest) with
  | error e => exact ⟨e, rfl⟩
  | ok out =>
    exfalso
    simp only [concat_batches] at hcb
    rcases except_bind_ok.mp hcb with ⟨vals, hvals, _⟩
    obtain ⟨v, hv⟩ :=
      forall₂_mem_l (mapM_ok_forall₂ _ hvals) b.num_columns
        (List.mem_range.mpr hlt)
    have hcol : b.column b.num_columns = none := by
      simp [Batch.column, Batch.num_columns, List.get?_eq_none]
    rw [show ((b0 :: rest).mapM fun bb => bb.column b.num_columns) = none from
      option_mapM_none _ hb hcol] at hv
    exact Except.noConfusion hv

/-- C6 counterexample: the input widths differ (0 vs 1 column) yet
`concat_batches` succeeds, because only the first batch's width drives
the column loop. -/
theorem concat_batches_cases_cex :
    (Batch.mk [] : Batch).num_columns
        ≠ (Batch.mk [Array.int64 ⟨[5], none⟩]).num_columns
      ∧ concat_batches [Batch.mk [], Batch.mk [Array.int64 ⟨[5], none⟩]]
          = .ok Batch.empty := by
  exact ⟨by decide, rfl⟩

theorem concat_batches_cases_witness :
    ∃ e, concat_batches [Batch.mk [Array.int64 ⟨[7], none⟩], Batch.mk []]
        = .error e := by
  exact concat_batches_cases.2 (Batch.mk [Array.int64 ⟨[7], none⟩]) [Batch.mk []]
    ⟨Batch.mk [], by simp, by decide⟩

end Bullet

namespace Broadcast

/-- A waker is opaque to the channel logic; we model it as a token.
Waking is modelled as clearing the registration slot (the `wake()` side
effect itself has no observable effect on channel state). -/
structure Waker where
  id : Nat
deriving DecidableEq, Repr

/-- `BatchState`: refcount plus the (releasable) batch payload. -/
structure BatchState where
  remaining_recv : Nat
  batch : Option Bullet.Batch

/-- `BroadcastState`: the mutex-protected compound state. -/
structure BroadcastState where
  num_receivers : Nat
  batches : List BatchState
  recv_wakers : List (Option (Nat × Waker))
  finished : Bool

structure BroadcastReceiver where
  subscribe_idx : Nat
  batch_idx : Nat

structure RecvFut where
  subscribe_idx : Nat
  batch_idx : Nat

/-- `BroadcastChannel::new`: state with no batches, one empty waker
slot per receiver, not finished; receivers numbered `0..n` with cursor
0. -/
def new (num_recvs : Nat) : BroadcastState × List BroadcastReceiver :=
  ({ num_receivers := num_recvs,
     batches := [],
     recv_wakers := List.replicate num_recvs none,
     finished := false },
   (List.range num_recvs).map fun idx => { subscribe_idx := idx, batch_idx := 0 })

/-- `BroadcastChannel::send`: append a slot with
`remaining_recv = num_receivers` and the batch present; wake (clear)
every waker registered for exactly the appended index, keep the rest.
Not guarded by `finished`. -/
def send (state : BroadcastState) (batch : Bullet.Batch) : BroadcastState :=
  let idx := state.batches.length
  { state with
    batches := state.batches
      ++ [{ remaining_recv := state.num_receivers, batch := some batch }],
    recv_wakers := state.recv_wakers.map fun rw =>
      match rw with
      | some (batch_idx, waker) =>
        if batch_idx = idx then none else some (batch_idx, waker)
      | none => none }

/-- `BroadcastChannel::finish`: set the flag and wake (clear) every
registered waker. -/
def finish (state : BroadcastState) : BroadcastState :=
  { state with finished := true,
               recv_wakers := state.recv_wakers.map fun _ => none }

/-- `BroadcastReceiver::recv`: hand out a future for the current cursor
and advance the cursor immediately. -/
def BroadcastReceiver.recv (r : BroadcastReceiver) : RecvFut × BroadcastReceiver :=
  ({ subscribe_idx := r.subscribe_idx, batch_idx := r.batch_idx },
   { r with batch_idx := r.batch_idx + 1 })

inductive Poll (α : Type) where
  | Ready (value : α)
  | Pending

/-- `RecvFut::poll`. The outer `none` models a Rust panic — the
`remaining_recv -= 1` underflow or a `batch.unwrap()` on an already
released slot — which is unreachable from channel-created states. When
slot `batch_idx` exists the refcount is decremented and the batch is
moved out (slot released) if it reaches zero, else cloned; when the
slot does not exist: end-of-stream if finished, otherwise `(batch_idx,
waker)` is registered in `recv_wakers[subscribe_idx]` and the poll is
pending. -/
def RecvFut.poll (fut : RecvFut) (waker : Waker) (state : BroadcastState) :
    Option (Poll (Option Bullet.Batch) × BroadcastState) :=
  match state.batches.get? fut.batch_idx with
  | some bs =>
    if bs.remaining_recv = 0 then none
    else
      match bs.batch with
      | none => none
      | some b =>
        if bs.remaining_recv - 1 = 0 then
          some (.Ready (some b),
            { state with batches :=
                state.batches.set fut.batch_idx ⟨0, none⟩ })
        else
          some (.Ready (some b),
            { state with batches :=
                state.batches.set fut.batch_idx ⟨bs.remaining_recv - 1, some b⟩ })
  | none =>
    if state.finished then
      some (.Ready none, state)
    else
      some (.Pending,
        { state with recv_wakers :=
            state.recv_wakers.set fut.subscribe_idx (some (fut.batch_idx, waker)) })

/-- C1: polling a recv future for batch index `i`. If slot `i` exists
(in a reachable state: refcount at least 1, batch present) the refcount
is decremented and the batch is returned — moved out of the slot when
the refcount reaches zero, cloned otherwise. If the slot does not exist
and the channel is finished, end-of-stream is returned. Otherwise
`(i, waker)` is stored into `recv_wakers[subscribe_idx]`, overwriting
any prior entry, and the poll is pending. -/
theorem recv_poll_spec (fut : RecvFut) (waker : Waker) (state : BroadcastState) :
    (∀ bs b, state.batches.get? fut.batch_idx = some bs →
        1 ≤ bs.remaining_recv → bs.batch = some b →
          fut.poll waker state = some
            (.Ready (some b),
             { state with batches := (state.batches.set fut.batch_idx ⟨bs.remaining_recv - 1, if bs.remaining_recv - 1 = 0 then none else some b⟩) }))
    ∧ (state.batches.get? fut.batch_idx = none → state.finished = true →
        fut.poll waker state = some (.Ready none, state))
    ∧ (state.batches.get? fut.batch_idx = none → state.finished = false →
        fut.poll waker state = some (.Pending,
          { state with recv_wakers :=
              state.recv_wakers.set fut.subscribe_idx (some (fut.batch_idx, waker)) })) := by
  refine ⟨?_, ?_, ?_⟩
  · intro bs b hget hge hbatch
    simp only [RecvFut.poll, hget, hbatch]
    have h0 : ¬ bs.remaining_recv = 0 := by omega
    rw [if_neg h0]
    by_cases hr : bs.remaining_recv - 1 = 0
    · rw [if_pos hr, hr]
      simp
    · rw [if_neg hr, if_neg hr]
  · intro hget hfin
    simp only [RecvFut.poll, hget, hfin]
    rfl
  · intro hget hfin
    simp only [RecvFut.poll, hget, hfin]
    rfl

theorem recv_poll_spec_witness :
    (RecvFut.mk 0 0).poll ⟨7⟩
      { num_receivers := 2, batches := [⟨2, some (Bullet.Batch.mk [])⟩],
        recv_wakers := [none, none], finished := false }
      = some (.Ready (some (Bullet.Batch.mk [])),
        { num_receivers := 2, batches := [⟨1, some (Bullet.Batch.mk [])⟩],
          recv_wakers := [none, none], finished := false })
    ∧ (RecvFut.mk 0 1).poll ⟨7⟩
      { num_receivers := 2, batches := [⟨2, some (Bullet.Batch.mk [])⟩],
        recv_wakers := [none, none], finished := false }
      = some (.Pending,
        { num_receivers := 2, batches := [⟨2, some (Bullet.Batch.mk [])⟩],
          recv_wakers := [some (1, ⟨7⟩), none], finished := false }) := by
  constructor
  · have h := (recv_poll_spec (RecvFut.mk 0 0) ⟨7⟩
      { num_receivers := 2, batches := [⟨2, some (Bullet.Batch.mk [])⟩],
        recv_wakers := [none, none], finished := false }).1
      (BatchState.mk 2 (some (Bullet.Batch.mk []))) (Bullet.Batch.mk []) rfl
      (by decide) rfl
    rw [h]
    rfl
  · have h := (recv_poll_spec (RecvFut.mk 0 1) ⟨7⟩
      { num_receivers := 2, batches := [⟨2, some (Bullet.Batch.mk [])⟩],
        recv_wakers := [none, none], finished := false }).2.2 rfl rfl
    rw [h]
    rfl

/-- C10: `send` is not guarded by `finished` — after `finish`, `send`
still appends a slot with `remaining_recv = num_receivers` and the
batch present; a poll of that index returns the batch (not
end-of-stream); end-of-stream arises only for indices at or beyond the
number of appended batches. -/
theorem send_after_finish (state : BroadcastState) (b : Bullet.Batch)
    (hfin : state.finished = true) (hn : 1 ≤ state.num_receivers) :
    (send state b).finished = true
    ∧ (send state b).batches
        = state.batches ++ [⟨state.num_receivers, some b⟩]
    ∧ (∀ (fut : RecvFut) (waker : Waker), fut.batch_idx = state.batches.length →
        ∃ st, fut.poll waker (send state b) = some (.Ready (some b), st))
    ∧ (∀ (fut : RecvFut) (waker : Waker),
        (send state b).batches.length ≤ fut.batch_idx →
        fut.poll waker (send state b) = some (.Ready none, send state b)) := by
  refine ⟨by simp [send, hfin], rfl, ?_, ?_⟩
  · intro fut waker hidx
    have hget : (send state b).batches.get? fut.batch_idx
        = some ⟨state.num_receivers, some b⟩ := by
      show (state.batches ++ [BatchState.mk state.num_receivers (some b)]).get? fut.batch_idx
        = some (BatchState.mk state.num_receivers (some b))
      rw [hidx]
      exact List.get?_concat_length _ _
    have h := (recv_poll_spec fut waker (send state b)).1
      (BatchState.mk state.num_receivers (some b)) b hget hn rfl
    exact ⟨_, h⟩
  · intro fut waker hge
    have hget : (send state b).batches.get? fut.batch_idx = none :=
      List.get?_eq_none.mpr hge
    exact (recv_poll_spec fut waker (send state b)).2.1 hget (by simp [send, hfin])

theorem send_after_finish_witness :
    ∃ st, (RecvFut.mk 0 0).poll ⟨3⟩
        (send { num_receivers := 1, batches := [], recv_wakers := [none],
                finished := true } (Bullet.Batch.mk []))
        = some (.Ready (some (Bullet.Batch.mk [])), st) := by
  exact (send_after_finish
    { num_receivers := 1, batches := [], recv_wakers := [none], finished := true }
    (Bullet.Batch.mk []) rfl (by decide)).2.2.1 (RecvFut.mk 0 0) ⟨3⟩ rfl

/-! C2 harness: after K sends and a finish, any interleaving of recv
polls by the N receivers is modelled as a schedule (a list of receiver
indices); each scheduled index performs one `recv()` (advancing that
receiver's cursor) and polls the returned future once. -/

/-- Global state: the shared channel state plus each receiver's
`batch_idx` cursor. -/
structure SysState where
  bs : BroadcastState
  cursors : List Nat

/-- Channel after `new n`, `K` sends, and `finish`; receivers hold
their initial cursors. -/
def initSys (n : Nat) (sent : List Bullet.Batch) : SysState :=
  { bs := finish (sent.foldl send (new n).1),
    cursors := ((new n).2.map fun r => r.batch_idx) }

/-- One receiver step: `recv()` then a single poll of the future. The
outer `none` covers a panic or a pending poll, neither of which occurs
after `finish`. -/
def stepRecv (sys : SysState) (r : Nat) (waker : Waker) :
    Option (Option Bullet.Batch × SysState) :=
  let c := sys.cursors.getD r 0
  match RecvFut.poll ⟨r, c⟩ waker sys.bs with
  | some (.Ready v, bs2) => some (v, ⟨bs2, sys.cursors.set r (c + 1)⟩)
  | some (.Pending, _) => none
  | none => none

/-- Run a schedule, recording each receiver's output. -/
def runSched (sys : SysState) (sched : List Nat) (waker : Waker) :
    Option (List (Nat × Option Bullet.Batch) × SysState) :=
  match sched with
  | [] => some ([], sys)
  | r :: rest =>
    match stepRecv sys r waker with
    | none => none
    | some (v, sys2) =>
      match runSched sys2 rest waker with
      | none => none
      | some (trace, final) => some ((r, v) :: trace, final)

/-- How many receivers have already consumed slot `i`: the number of
cursors strictly beyond `i`. -/
def cnt (cursors : List Nat) (i : Nat) : Nat :=
  cursors.countP fun c => decide (i < c)

/-- Reachable-state invariant for the post-finish phase: `N` cursors,
the channel finished with `K` slots, and slot `i` holding refcount
`N - cnt i` with the batch still present exactly while `cnt i < N`. -/
def Inv (n : Nat) (sent : List Bullet.Batch) (sys : SysState) : Prop :=
  sys.cursors.length = n
    ∧ sys.bs.num_receivers = n
    ∧ sys.bs.finished = true
    ∧ sys.bs.batches.length = sent.length
    ∧ ∀ i < sent.length,
        sys.bs.batches.get? i = some
          ⟨n - cnt sys.cursors i,
           if cnt sys.cursors i < n then sent.get? i else none⟩

theorem countP_set_of_get? {l : List Nat} (p : Nat → Bool) :
    ∀ {r : Nat} {o v : Nat}, l.get? r = some o →
      (l.set r v).countP p
        = l.countP p + (if p v then 1 else 0) - (if p o then 1 else 0) := by
  induction l with
  | nil => intro r o v h; simp at h
  | cons x t ih =>
    intro r o v h
    cases r with
    | zero =>
      simp only [List.get?_cons_zero, Option.some.injEq] at h
      subst h
      simp only [List.set_cons_zero, List.countP_cons]
      by_cases hn : p v = true <;> by_cases ho : p x = true <;>
        simp [hn, ho] <;> omega
    | succ r2 =>
      simp only [List.get?_cons_succ] at h
      simp only [List.set_cons_succ, List.countP_cons, ih h]
      by_cases ho : p o = true
      · have h1 : 0 < t.countP p := List.countP_pos.mpr ⟨o, List.get?_mem h, ho⟩
        by_cases hn : p v = true <;> by_cases hx : p x = true <;>
          simp [hn, hx, ho] <;> omega
      · by_cases hn : p v = true <;> by_cases hx : p x = true <;>
          simp [hn, hx, ho] <;> omega

theorem cnt_le_length (cursors : List Nat) (i : Nat) :
    cnt cursors i ≤ cursors.length :=
  List.countP_le_length _

theorem cnt_lt_of_cursor_eq {cursors : List Nat} {r c i : Nat}
    (hget : cursors.get? r = some c) (hci : ¬ i < c) :
    cnt cursors i < cursors.length := by
  rcases Nat.lt_or_ge (cnt cursors i) cursors.length with h | h
  · exact h
  · exfalso
    have heq : cnt cursors i = cursors.length := le_antisymm (cnt_le_length _ _) h
    have hall := List.countP_eq_length.mp heq
    have hmem : c ∈ cursors := List.get?_mem hget
    have := hall c hmem
    simp at this
    omega

theorem cnt_set_succ {cursors : List Nat} {r c : Nat}
    (h : cursors.get? r = some c) :
    cnt (cursors.set r (c + 1)) c = cnt cursors c + 1 := by
  unfold cnt
  rw [countP_set_of_get? _ h]
  simp

theorem cnt_set_ne {cursors : List Nat} {r c i : Nat}
    (h : cursors.get? r = some c) (hne : i ≠ c) :
    cnt (cursors.set r (c + 1)) i = cnt cursors i := by
  unfold cnt
  rw [countP_set_of_get? _ h]
  by_cases hlt : i < c
  · have h2 : i < c + 1 := by omega
    simp [hlt, h2]
  · have h2 : ¬ i < c + 1 := by omega
    simp [hlt, h2]

theorem send_foldl (sent : List Bullet.Batch) :
    ∀ (st : BroadcastState),
      (sent.foldl send st).batches
          = st.batches ++ sent.map (fun b => ⟨st.num_receivers, some b⟩)
        ∧ (sent.foldl send st).num_receivers = st.num_receivers
        ∧ (sent.foldl send st).finished = st.finished := by
  induction sent with
  | nil => intro st; simp
  | cons b rest ih =>
    intro st
    rw [List.foldl_cons]
    obtain ⟨h1, h2, h3⟩ := ih (send st b)
    refine ⟨?_, by rw [h2]; rfl, by rw [h3]; rfl⟩
    rw [h1]
    show (st.batches ++ [⟨st.num_receivers, some b⟩])
        ++ rest.map (fun x => ⟨st.num_receivers, some x⟩)
      = st.batches ++ (⟨st.num_receivers, some b⟩
        :: rest.map (fun x => ⟨st.num_receivers, some x⟩))
    rw [List.append_assoc]
    rfl

theorem initSys_cursors (n : Nat) (sent : List Bullet.Batch) :
    (initSys n sent).cursors = List.replicate n 0 := by
  show ((List.range n).map fun idx =>
      (⟨idx, 0⟩ : BroadcastReceiver)).map (fun r => r.batch_idx)
    = List.replicate n 0
  rw [List.map_map]
  show (List.range n).map (fun _ => 0) = List.replicate n 0
  rw [List.map_const', List.length_range]

theorem initSys_inv (n : Nat) (hn : 1 ≤ n) (sent : List Bullet.Batch) :
    Inv n sent (initSys n sent) := by
  obtain ⟨h1, h2, h3⟩ := send_foldl sent (new n).1
  have hcursors := initSys_cursors n sent
  refine ⟨?_, ?_, rfl, ?_, ?_⟩
  · rw [hcursors]; simp
  · show (sent.foldl send (new n).1).num_receivers = n
    rw [h2]; rfl
  · show (sent.foldl send (new n).1).batches.length = sent.length
    rw [h1]; simp [new]
  · intro i hi
    have hcnt : cnt (initSys n sent).cursors i = 0 := by
      rw [hcursors]
      simp [cnt, List.countP_eq_zero]
    rw [hcnt]
    show (sent.foldl send (new n).1).batches.get? i = _
    rw [h1]
    show (sent.map fun b => (⟨n, some b⟩ : BatchState)).get? i = _
    rw [List.get?_map]
    cases hsb : sent.get? i with
    | none =>
      exfalso
      rw [List.get?_eq_none] at hsb
      omega
    | some b =>
      simp [show 0 < n from hn, hsb]

/-- One scheduled receiver step from an invariant state: the output is
`sent[cursor]`(or `none` past the end), the cursor advances, and the
invariant is preserved. -/
theorem stepRecv_spec {n : Nat} {sent : List Bullet.Batch} {sys : SysState}
    (hInv : Inv n sent sys) {r : Nat} (hr : r < n) (waker : Waker) :
    ∃ sys2, stepRecv sys r waker = some (sent.get? (sys.cursors.getD r 0), sys2)
      ∧ Inv n sent sys2
      ∧ sys2.cursors = sys.cursors.set r (sys.cursors.getD r 0 + 1) := by
  obtain ⟨hlen, hnum, hfin, hblen, hslots⟩ := hInv
  obtain ⟨c, hc⟩ : ∃ c, sys.cursors.get? r = some c := by
    cases hg : sys.cursors.get? r with
    | none => rw [List.get?_eq_none] at hg; omega
    | some c => exact ⟨c, rfl⟩
  have hcd : sys.cursors.getD r 0 = c := by rw [List.getD_eq_get?, hc]; rfl
  by_cases hck : c < sent.length
  · have hslot := hslots c hck
    have hcnt_lt : cnt sys.cursors c < n := by
      have h2 := cnt_lt_of_cursor_eq hc (Nat.lt_irrefl c)
      rw [hlen] at h2
      exact h2
    obtain ⟨b, hb⟩ : ∃ b, sent.get? c = some b := by
      cases hsb : sent.get? c with
      | none => rw [List.get?_eq_none] at hsb; omega
      | some b => exact ⟨b, rfl⟩
    have hrem : 1 ≤ (n - cnt sys.cursors c) := by omega
    have hpoll := (recv_poll_spec ⟨r, c⟩ waker sys.bs).1
      ⟨n - cnt sys.cursors c, if cnt sys.cursors c < n then sent.get? c else none⟩
      b hslot hrem (by rw [if_pos hcnt_lt]; exact hb)
    refine ⟨⟨{ sys.bs with batches := (sys.bs.batches.set c
        ⟨n - cnt sys.cursors c - 1,
         if n - cnt sys.cursors c - 1 = 0 then none else some b⟩) },
        sys.cursors.set r (c + 1)⟩, ?_, ?_, ?_⟩
    · simp only [stepRecv]
      rw [hcd, hpoll, hb]
    · refine ⟨by simp [hlen], hnum, hfin, by simp [hblen], ?_⟩
      intro i hi
      by_cases hic : i = c
      · subst hic
        show (sys.bs.batches.set i _).get? i = _
        rw [List.get?_set_eq, hslot, cnt_set_succ hc]
        refine congrArg some ?_
        have hA : n - cnt sys.cursors i - 1 = n - (cnt sys.cursors i + 1) := by
          omega
        rw [hA]
        by_cases hz : n - (cnt sys.cursors i + 1) = 0
        · have h2 : ¬ (cnt sys.cursors i + 1 < n) := by omega
          rw [if_pos hz, if_neg h2]
        · have h2 : cnt sys.cursors i + 1 < n := by omega
          rw [if_neg hz, if_pos h2, hb]
      · show (sys.bs.batches.set c _).get? i = _
        rw [List.get?_set_ne _ _ (fun hh => hic hh.symm), cnt_set_ne hc hic]
        exact hslots i hi
    · rw [hcd]
  · have hgetn : sys.bs.batches.get? c = none := by
      rw [List.get?_eq_none]; omega
    have hpoll := (recv_poll_spec ⟨r, c⟩ waker sys.bs).2.1 hgetn hfin
    refine ⟨⟨sys.bs, sys.cursors.set r (c + 1)⟩, ?_, ?_, ?_⟩
    · simp only [stepRecv]
      rw [hcd, hpoll]
      have hn2 : sent.get? c = none := by rw [List.get?_eq_none]; omega
      rw [hn2]
    · refine ⟨by simp [hlen], hnum, hfin, hblen, ?_⟩
      intro i hi
      rw [cnt_set_ne hc (by omega)]
      exact hslots i hi
    · rw [hcd]

theorem getD_set_self {l : List Nat} {r x : Nat} (h : r < l.length) :
    (l.set r x).getD r 0 = x := by
  obtain ⟨c, hc⟩ : ∃ c, l.get? r = some c := by
    cases hg : l.get? r with
    | none => rw [List.get?_eq_none] at hg; omega
    | some c => exact ⟨c, rfl⟩
  rw [List.getD_eq_get?, List.get?_set_eq, hc]
  rfl

theorem getD_set_ne {l : List Nat} {r0 r x : Nat} (h : r0 ≠ r) :
    (l.set r0 x).getD r 0 = l.getD r 0 := by
  rw [List.getD_eq_get?, List.getD_eq_get?, List.get?_set_ne _ _ h]

theorem runSched_cons_ok {sys : SysState} {r0 : Nat} {rest : List Nat}
    {waker : Waker} {v : Option Bullet.Batch} {sys2 : SysState}
    {trace : List (Nat × Option Bullet.Batch)} {final : SysState}
    (hstep : stepRecv sys r0 waker = some (v, sys2))
    (hrun : runSched sys2 rest waker = some (trace, final)) :
    runSched sys (r0 :: rest) waker = some ((r0, v) :: trace, final) := by
  simp only [runSched, hstep, hrun]

/-- Running any post-finish schedule from an invariant state succeeds
(never panics, never pends) and hands receiver `r`, in order, the
outputs `sent[c], sent[c+1], …` from its current cursor `c` on —
`some batch` while in range, `none` past the end. -/
theorem runSched_spec {n : Nat} {sent : List Bullet.Batch} (waker : Waker) :
    ∀ (sched : List Nat) (sys : SysState),
      Inv n sent sys → (∀ r ∈ sched, r < n) →
      ∃ trace final,
        runSched sys sched waker = some (trace, final)
          ∧ Inv n sent final
          ∧ ∀ r, r < n →
              (trace.filter (fun p => p.1 = r)).map (fun p => p.2)
                = (List.range' (sys.cursors.getD r 0) (sched.count r)).map
                    (fun m => sent.get? m) := by
  intro sched
  induction sched with
  | nil =>
    intro sys hInv _
    exact ⟨[], sys, rfl, hInv, by intro r _; simp⟩
  | cons r0 rest ih =>
    intro sys hInv hmem
    obtain ⟨sys2, hstep, hInv2, hcur2⟩ := stepRecv_spec hInv (hmem r0 (by simp)) waker
    obtain ⟨trace, final, hrun, hInvF, htrace⟩ :=
      ih sys2 hInv2 fun r hr => hmem r (by simp [hr])
    refine ⟨(r0, sent.get? (sys.cursors.getD r0 0)) :: trace, final,
      runSched_cons_ok hstep hrun, hInvF, ?_⟩
    intro r hrlt
    by_cases hrr : r = r0
    · subst hrr
      have hcount : (r :: rest).count r = rest.count r + 1 := by
        simp [List.count_cons]
      have hfilter : ((r, sent.get? (sys.cursors.getD r 0)) :: trace).filter
          (fun p => p.1 = r) = (r, sent.get? (sys.cursors.getD r 0))
            :: trace.filter (fun p => p.1 = r) := by
        simp [List.filter_cons]
      rw [hfilter, List.map_cons, htrace r hrlt, hcount, List.range'_succ,
        List.map_cons]
      have hgd : sys2.cursors.getD r 0 = sys.cursors.getD r 0 + 1 := by
        rw [hcur2]
        exact getD_set_self (by rw [hInv.1]; exact hrlt)
      rw [hgd]
    · have hcount : (r0 :: rest).count r = rest.count r := by
        simp [List.count_cons, fun hh : r = r0 => hrr hh]
      have hner : ¬ r0 = r := fun hh => hrr hh.symm
      have hfilter : ((r0, sent.get? (sys.cursors.getD r0 0)) :: trace).filter
          (fun p => p.1 = r) = trace.filter (fun p => p.1 = r) := by
        simp [List.filter_cons, hner]
      rw [hfilter, htrace r hrlt, hcount]
      have hgd : sys2.cursors.getD r 0 = sys.cursors.getD r 0 := by
        rw [hcur2]
        exact getD_set_ne (fun hh => hrr hh.symm)
      rw [hgd]

/-- C2: with `N ≥ 1` receivers, after `K` sends and a `finish`, every
interleaving of recv polls gives each receiver exactly the `K` sent
batches in send (append) order, then end-of-stream (`none`) on every
subsequent recv — receiver `r`'s successive outputs are
`sent[0], …, sent[K-1], none, none, …`. -/
theorem broadcast_fanout (n : Nat) (hn : 1 ≤ n) (sent : List Bullet.Batch)
    (sched : List Nat) (hsched : ∀ r ∈ sched, r < n) (waker : Waker) :
    ∃ trace final,
      runSched (initSys n sent) sched waker = some (trace, final)
        ∧ ∀ r, r < n →
            (trace.filter (fun p => p.1 = r)).map (fun p => p.2)
              = (List.range (sched.count r)).map (fun m => sent.get? m) := by
  obtain ⟨trace, final, hrun, _, htrace⟩ :=
    runSched_spec waker sched (initSys n sent) (initSys_inv n hn sent) hsched
  refine ⟨trace, final, hrun, ?_⟩
  intro r hr
  rw [htrace r hr]
  have h0 : (initSys n sent).cursors.getD r 0 = 0 := by
    rw [initSys_cursors]
    rw [List.getD_eq_get?]
    cases hg : (List.replicate n 0).get? r with
    | none => rfl
    | some c =>
      have := List.get?_mem hg
      rw [List.eq_of_mem_replicate this] at hg ⊢
      rfl
  rw [h0, ← List.range_eq_range']

theorem broadcast_fanout_witness :
    ∃ trace final,
      runSched (initSys 2 [Bullet.Batch.mk [],
          Bullet.Batch.mk [Bullet.Array.int64 ⟨[1], none⟩]])
        [0, 1, 1, 0, 0, 1] ⟨0⟩ = some (trace, final)
      ∧ (trace.filter (fun p => p.1 = 0)).map (fun p => p.2)
          = [some (Bullet.Batch.mk []),
             some (Bullet.Batch.mk [Bullet.Array.int64 ⟨[1], none⟩]), none]
      ∧ (trace.filter (fun p => p.1 = 1)).map (fun p => p.2)
          = [some (Bullet.Batch.mk []),
             some (Bullet.Batch.mk [Bullet.Array.int64 ⟨[1], none⟩]), none] := by
  obtain ⟨trace, final, hrun, htr⟩ :=
    broadcast_fanout 2 (by decide)
      [Bullet.Batch.mk [], Bullet.Batch.mk [Bullet.Array.int64 ⟨[1], none⟩]]
      [0, 1, 1, 0, 0, 1] (by decide) ⟨0⟩
  refine ⟨trace, final, hrun, ?_, ?_⟩
  · rw [htr 0 (by decide)]
    rfl
  · rw [htr 1 (by decide)]
    rfl

end Broadcast

namespace Planner

/-- Rust `str::parse::<i64>` / `<u64>` digit run: at least one ASCII
digit, nothing else. -/
def digits_val (cs : List Char) : Nat :=
  cs.foldl (fun acc c => acc * 10 + (c.toNat - '0'.toNat)) 0

/-- Rust `i64::from_str`: optional sign, one or more digits, within
`[-2^63, 2^63 - 1]`. -/
def parse_i64 (s : String) : Option Int :=
  let cs := s.toList
  let signed : Bool × List Char :=
    match cs with
    | '+' :: r => (false, r)
    | '-' :: r => (true, r)
    | r => (false, r)
  if signed.2.isEmpty || !signed.2.all Char.isDigit then none
  else
    let v : Int := if signed.1 then -(digits_val signed.2 : Int) else (digits_val signed.2 : Int)
    if -(2 ^ 63) ≤ v ∧ v ≤ 2 ^ 63 - 1 then some v else none

/-- Rust `u64::from_str`: optional leading `+` (no `-`), one or more
digits, at most `2^64 - 1`. -/
def parse_u64 (s : String) : Option Nat :=
  let ds : List Char :=
    match s.toList with
    | '+' :: r => r
    | r => r
  if ds.isEmpty || !ds.all Char.isDigit then none
  else if digits_val ds ≤ 2 ^ 64 - 1 then some (digits_val ds) else none

/-- Strip one optional leading sign. -/
def strip_sign (cs : List Char) : List Char :=
  match cs with
  | '+' :: r => r
  | '-' :: r => r
  | r => r

/-- Rust `f64::from_str` mantissa grammar:
`Digit+ | Digit+ '.' Digit* | Digit* '.' Digit+`. -/
def mantissa_ok (cs : List Char) : Bool :=
  let intPart := cs.takeWhile Char.isDigit
  let rest := cs.dropWhile Char.isDigit
  match rest with
  | [] => !intPart.isEmpty
  | '.' :: frac => frac.all Char.isDigit && (!intPart.isEmpty || !frac.isEmpty)
  | _ => false

/-- Rust `f64::from_str` number grammar: mantissa with optional
`(e|E) Sign? Digit+` exponent. -/
def number_ok (cs : List Char) : Bool :=
  let notExp : Char → Bool := fun c => !(c = 'e' || c = 'E')
  let mant := cs.takeWhile notExp
  match cs.dropWhile notExp with
  | [] => mantissa_ok mant
  | _ :: expPart =>
    mantissa_ok mant &&
      (let ep := strip_sign expPart
       !ep.isEmpty && ep.all Char.isDigit)

/-- Whether Rust `f64::from_str` accepts the string: optional sign, then
`inf`/`infinity`/`nan` (case-insensitive) or a number. The resulting
floating-point value is not modelled. -/
def parses_f64 (s : String) : Bool :=
  let cs := strip_sign s.toList
  let lower := cs.map Char.toLower
  lower = "inf".toList || lower = "infinity".toList || lower = "nan".toList
    || number_ok cs

/-- Modelled from the spec: SQL literal AST
(`Number | Boolean | Null | SingleQuotedString`, plus further
unsupported forms collapsed into `other`). -/
inductive Literal where
  | number (n : String)
  | boolean (b : Bool)
  | null
  | singleQuotedString (s : String)
  | other (description : String)

/-- Modelled from the spec: the parser's binary operators; conversion
to a planner operator can fail for unsupported ones. -/
inductive BinaryOperator where
  | plus
  | minus
  | eq
  | unsupported (description : String)

/-- Modelled from the spec: AST expressions — Ident, CompoundIdent,
Literal, BinaryExpr are handled by the planner; every other AST form
(subqueries, functions, …) is collapsed into `other`. -/
inductive Expr where
  | ident (value : String)
  | compoundIdent (idents : List String)
  | literal (lit : Literal)
  | binaryExpr (left : Expr) (op : BinaryOperator) (right : Expr)
  | other (description : String)

inductive ScalarValue where
  | null
  | boolean (b : Bool)
  | int64 (v : Int)
  | uint64 (v : Nat)
  | float64 (litRepr : String)
  | utf8 (s : String)
deriving DecidableEq, Repr

inductive BinaryOp where
  | add
  | sub
  | eq
deriving DecidableEq, Repr

inductive LogicalExpression where
  | columnRef (scopeLevel : Nat) (itemIdx : Nat)
  | literal (v : ScalarValue)
  | binary (op : BinaryOp) (left : LogicalExpression) (right : LogicalExpression)

/-- A plan outcome distinguishes a returned error from a Rust panic
(`unimplemented!` in the catch-all arm of `plan_expression`). -/
inductive PlanFailure where
  | error (msg : String)
  | panicked (msg : String)

abbrev PResult (α : Type) := Except PlanFailure α

def binop_try_into : BinaryOperator → PResult BinaryOp
  | .plus => .ok .add
  | .minus => .ok .sub
  | .eq => .ok .eq
  | .unsupported d => .error (.error ("Unsupported operator: " ++ d))

/-- Modelled from the spec: a scope item binds a column name with an
optional table qualifier. -/
structure ScopeItem where
  table : Option String
  column : String

abbrev Scope := List ScopeItem

/-- Modelled from the spec: resolution tries the active scope first,
then each outer scope in order; within a scope, the first item whose
column (and table qualifier, when given) matches. -/
def resolve_column (scopes : List Scope) (tableRef : Option String)
    (name : String) : Option (Nat × Nat) :=
  match scopes with
  | [] => none
  | sc :: rest =>
    match sc.findIdx? (fun item =>
        item.column = name
          && (tableRef.isNone || item.table = tableRef)) with
    | some idx => some (0, idx)
    | none =>
      match resolve_column rest tableRef name with
      | some (lvl, idx) => some (lvl + 1, idx)
      | none => none

structure ExpressionContext where
  scope : Scope
  outer_scopes : List Scope

/-- `plan_ident`: a bare identifier resolves as a column in the current
scope or an outer scope. -/
def plan_ident (ctx : ExpressionContext) (value : String) :
    PResult LogicalExpression :=
  match resolve_column (ctx.scope :: ctx.outer_scopes) none value with
  | some (lvl, idx) => .ok (.columnRef lvl idx)
  | none => .error (.error ("Missing column for reference: " ++ value))

/-- `plan_idents`: 0 parts errors; 1 part is a bare column; 2–4 parts
are a qualified column (the last part is the column, the one before it
the table; schema/database parts are accepted but our modelled resolver
only consults the table); more than 4 parts error. -/
def plan_idents (ctx : ExpressionContext) (idents : List String) :
    PResult LogicalExpression :=
  match idents with
  | [] => .error (.error "Empty identifier")
  | [x] => plan_ident ctx x
  | _ =>
    if idents.length ≤ 4 then
      match idents.reverse with
      | col :: table :: _ =>
        match resolve_column (ctx.scope :: ctx.outer_scopes) (some table) col with
        | some (lvl, idx) => .ok (.columnRef lvl idx)
        | none => .error (.error ("Missing column for reference: "
            ++ table ++ "." ++ col))
      | _ => .error (.error "Empty identifier")
    else .error (.error "Too many identifier parts")

/-- `plan_literal`: a `Number` tries `i64`, then `u64`, then `f64`, in
that order, else errors; booleans, null and strings map directly; any
other literal form errors. -/
def plan_literal (ctx : ExpressionContext) : Literal → PResult LogicalExpression
  | .number n =>
    match parse_i64 n with
    | some v => .ok (.literal (.int64 v))
    | none =>
      match parse_u64 n with
      | some v => .ok (.literal (.uint64 v))
      | none =>
        if parses_f64 n then .ok (.literal (.float64 n))
        else .error (.error ("Unable to parse " ++ n ++ " as a number"))
  | .boolean b => .ok (.literal (.boolean b))
  | .null => .ok (.literal .null)
  | .singleQuotedString str => .ok (.literal (.utf8 str))
  | .other d => .error (.error ("Unusupported SQL literal: " ++ d))

/-- `plan_expression`: Ident/CompoundIdent/Literal/BinaryExpr are
planned; the source's catch-all arm is `unimplemented!()`, i.e. a
panic, modelled as `PlanFailure.panicked`. -/
def plan_expression (ctx : ExpressionContext) : Expr → PResult LogicalExpression
  | .ident v => plan_ident ctx v
  | .compoundIdent ids => plan_idents ctx ids
  | .literal lit => plan_literal ctx lit
  | .binaryExpr l op r => do
    let op2 ← binop_try_into op
    let l2 ← plan_expression ctx l
    let r2 ← plan_expression ctx r
    .ok (.binary op2 l2 r2)
  | .other d => .error (.panicked ("not implemented: " ++ d))

/-- C7 (code divergence): on any AST form other than Ident,
CompoundIdent, Literal and BinaryExpr, `plan_expression` executes
`unimplemented!()` — a panic — instead of returning the
`NotImplemented` error that the spec (§7: "no panics on user input")
prescribes. -/
theorem plan_expression_unhandled_panics :
    plan_expression ⟨[], []⟩ (.other "exists subquery")
      = .error (.panicked "not implemented: exists subquery") := rfl

/-- C9: a numeric literal is planned by attempting `i64`, then `u64`,
then `f64`, in exactly that order, and errors only when all three
fail. -/
theorem plan_literal_number_order (ctx : ExpressionContext) (n : String) :
    (∀ v, parse_i64 n = some v →
        plan_literal ctx (.number n) = .ok (.literal (.int64 v)))
    ∧ (parse_i64 n = none → ∀ v, parse_u64 n = some v →
        plan_literal ctx (.number n) = .ok (.literal (.uint64 v)))
    ∧ (parse_i64 n = none → parse_u64 n = none → parses_f64 n = true →
        plan_literal ctx (.number n) = .ok (.literal (.float64 n)))
    ∧ (parse_i64 n = none → parse_u64 n = none → parses_f64 n = false →
        plan_literal ctx (.number n)
          = .error (.error ("Unable to parse " ++ n ++ " as a number"))) := by
  refine ⟨?_, ?_, ?_, ?_⟩
  · intro v hv
    simp [plan_literal, hv]
  · intro h1 v hv
    simp [plan_literal, h1, hv]
  · intro h1 h2 h3
    simp [plan_literal, h1, h2, h3]
  · intro h1 h2 h3
    simp [plan_literal, h1, h2, h3]

theorem plan_literal_number_order_witness :
    plan_literal ⟨[], []⟩ (.number "9223372036854775808")
      = .ok (.literal (.uint64 9223372036854775808))
    ∧ plan_literal ⟨[], []⟩ (.number "-9223372036854775809")
      = .ok (.literal (.float64 "-9223372036854775809"))
    ∧ plan_literal ⟨[], []⟩ (.number "12abc")
      = .error (.error "Unable to parse 12abc as a number") := by
  refine ⟨?_, ?_, ?_⟩
  · exact (plan_literal_number_order ⟨[], []⟩ "9223372036854775808").2.1
      (by decide) 9223372036854775808 (by decide)
  · exact (plan_literal_number_order ⟨[], []⟩ "-9223372036854775809").2.2.1
      (by decide) (by decide) (by decide)
  · exact (plan_literal_number_order ⟨[], []⟩ "12abc").2.2.2
      (by decide) (by decide) (by decide)

end Planner

namespace Parquet

/-- `RowGroupPartitionedDataTable::scan`'s partitioning loop: row group
`r` is pushed onto partition `r % num_partitions`, starting from
`num_partitions` empty queues. -/
def scan_partition_row_groups (num_row_groups num_partitions : Nat) :
    List (List Nat) :=
  (List.range num_row_groups).foldl
    (fun parts row_group =>
      parts.set (row_group % num_partitions)
        ((parts.getD (row_group % num_partitions) []) ++ [row_group]))
    (List.replicate num_partitions [])

/-- Modelled from the spec: an `AsyncBatchReader` yields, in order, the
batches of its assigned row groups and then end-of-stream;
`rgBatches` abstracts the file's per-row-group contents. A partition
with no assigned row groups yields nothing (its first pull is `None`). -/
def reader_outputs (rgBatches : Nat → List Bullet.Batch)
    (rowGroups : List Nat) : List Bullet.Batch :=
  (rowGroups.map rgBatches).flatten

theorem list_getD_set_self {α : Type} {l : List α} {r : Nat} {x d : α}
    (h : r < l.length) : (l.set r x).getD r d = x := by
  obtain ⟨c, hc⟩ : ∃ c, l.get? r = some c := by
    cases hg : l.get? r with
    | none => rw [List.get?_eq_none] at hg; omega
    | some c => exact ⟨c, rfl⟩
  rw [List.getD_eq_get?, List.get?_set_eq, hc]
  rfl

theorem list_getD_set_ne {α : Type} {l : List α} {r0 r : Nat} {x d : α}
    (h : r0 ≠ r) : (l.set r0 x).getD r d = l.getD r d := by
  rw [List.getD_eq_get?, List.getD_eq_get?, List.get?_set_ne _ _ h]

theorem scan_partition_characterization (N : Nat) (hn : 1 ≤ N) :
    ∀ (K : Nat),
      (scan_partition_row_groups K N).length = N
        ∧ ∀ p, p < N → (scan_partition_row_groups K N).getD p []
            = (List.range K).filter (fun r => r % N = p) := by
  intro K
  induction K with
  | zero =>
    refine ⟨by simp [scan_partition_row_groups], ?_⟩
    intro p hp
    simp [scan_partition_row_groups]
  | succ k ihk =>
    obtain ⟨ih1, ih2⟩ := ihk
    have hunf : scan_partition_row_groups (k + 1) N
        = (scan_partition_row_groups k N).set (k % N)
            (((scan_partition_row_groups k N).getD (k % N) []) ++ [k]) := by
      show (List.range (k + 1)).foldl _ _ = _
      rw [List.range_succ, List.foldl_append]
      rfl
    have hkN : k % N < N := Nat.mod_lt _ (by omega)
    refine ⟨by rw [hunf]; simp [ih1], ?_⟩
    intro p hp
    rw [hunf, List.range_succ, List.filter_append]
    by_cases hpk : p = k % N
    · subst hpk
      rw [list_getD_set_self (by rw [ih1]; exact hp), ih2 _ hp]
      simp
    · rw [list_getD_set_ne (fun hh => hpk hh.symm), ih2 p hp]
      have : ¬ (k % N = p) := fun hh => hpk hh.symm
      simp [this]

/-- C8: partitioning row groups `0..K` over `N ≥ 1` partitions yields
exactly `N` scans; partition `p` is assigned precisely the row groups
`r < K` with `r % N = p` (in increasing order), so every row group goes
to exactly one partition and the partitions cover the file without
duplicates; a partition with no assigned row groups produces no batches
(its first pull is end-of-stream). -/
theorem scan_spec (K N : Nat) (hn : 1 ≤ N) :
    (scan_partition_row_groups K N).length = N
    ∧ (∀ p, p < N → (scan_partition_row_groups K N).getD p []
        = (List.range K).filter (fun r => r % N = p))
    ∧ (∀ r, r < K → ∃! p, p < N
        ∧ r ∈ (scan_partition_row_groups K N).getD p [])
    ∧ (∀ (rgBatches : Nat → List Bullet.Batch), reader_outputs rgBatches [] = []) := by
  obtain ⟨h1, h2⟩ := scan_partition_characterization N hn K
  refine ⟨h1, h2, ?_, fun _ => rfl⟩
  intro r hr
  refine ⟨r % N, ⟨Nat.mod_lt _ (by omega), ?_⟩, ?_⟩
  · rw [h2 _ (Nat.mod_lt _ (by omega))]
    rw [List.mem_filter]
    exact ⟨List.mem_range.mpr hr, by simp⟩
  · intro q ⟨hq, hmem⟩
    rw [h2 _ hq, List.mem_filter] at hmem
    have := hmem.2
    simp at this
    omega

theorem scan_spec_witness :
    (scan_partition_row_groups 5 2).length = 2
    ∧ (scan_partition_row_groups 5 2).getD 0 [] = [0, 2, 4]
    ∧ (scan_partition_row_groups 5 2).getD 1 [] = [1, 3] := by
  obtain ⟨h1, h2, _, _⟩ := scan_spec 5 2 (by decide)
  refine ⟨h1, ?_, ?_⟩
  · rw [h2 0 (by decide)]
    rfl
  · rw [h2 1 (by decide)]
    rfl

end Parquet



